import Mathlib

/-! Win32CaptureSample: the capturable-window registry and the capture orchestrator.

A shallow embedding of `WindowList.cpp` (the filter `IsCapturableWindow`, the
registry `WindowList` with its constructor, its window-event callback,
`AddWindow`, `RemoveWindow`, `ForceUpdateComboBox`) and of the session-dependent
operations of `App.cpp` (`TakeSnapshotAsync`, `StopCapture`, the cursor and border
accessors), followed by the theorems about them.

Conventions of the embedding

* A window handle (`HWND`) is a natural number, `nullptr` is `0`.
* `WindowInfo.Title` is the wide string of the record, which can hold NUL
  characters; `c_str` gives the NUL-terminated string that `title.c_str()` hands to
  `wcscmp` and to the combo box: the characters before the first NUL. Only
  `title.length() == 0` is read of the length, so that counting characters
  instead of UTF-16 code units makes no difference.
* The operating system is a record `Win32` of query results, fixed during a call.
* A combo box is a list of strings; `SendMessageW` to it is a step on `Desktop`,
  which also logs every message sent.
* A C++ exception is the `Except.error` result of a call; the state that the call
  had reached when the exception left it is kept in the result.
* Indices and item counts are unbounded naturals: a combo box cannot hold the
  2^31 entries that would be needed to overflow the `int index` of `RemoveWindow`.
-/

namespace Win32CaptureSample

/-! ## Data model -/

/-- Window handle; `nullptr` is `0`. -/
abbrev HWND := Nat

/-- The record `WindowInfo`, as far as `WindowList.cpp` reads it. -/
structure WindowInfo where
  WindowHandle : HWND
  Title : String
deriving DecidableEq, Repr

/-- Style bit `WS_DISABLED` (Windows SDK). -/
def WS_DISABLED : Nat := 0x08000000

/-- Cloak value `DWM_CLOAKED_SHELL` (Windows SDK). -/
def DWM_CLOAKED_SHELL : Nat := 2

/-- Event code `EVENT_OBJECT_DESTROY` (Windows SDK). -/
def EVENT_OBJECT_DESTROY : Nat := 0x8001

/-- Event code `EVENT_OBJECT_SHOW` (Windows SDK). -/
def EVENT_OBJECT_SHOW : Nat := 0x8002

/-- Event code `EVENT_OBJECT_UNCLOAKED` (Windows SDK). -/
def EVENT_OBJECT_UNCLOAKED : Nat := 0x8018

/-- Object identifier `OBJID_WINDOW`: the event concerns the window itself. -/
def OBJID_WINDOW : Int := 0

/-- Object identifier `OBJID_CLIENT`: the client area of the window. -/
def OBJID_CLIENT : Int := -4

/-- Object identifier `OBJID_CARET`: the text caret inside the window. -/
def OBJID_CARET : Int := -8

/-- Child identifier `CHILDID_SELF`: the object itself, not one of its children. -/
def CHILDID_SELF : Int := 0

/-- Combo box error result `CB_ERR`. -/
def CB_ERR : Int := -1

/-- Results of the operating-system queries made by `WindowList.cpp`. -/
structure Win32 where
  /-- Result of `GetShellWindow()`. -/
  GetShellWindow : HWND
  /-- Result of `IsWindowVisible(hwnd)`. -/
  IsWindowVisible : HWND → Bool
  /-- Result of `GetAncestor(hwnd, GA_ROOT)`. -/
  GetAncestorRoot : HWND → HWND
  /-- Result of `GetWindowLongW(hwnd, GWL_STYLE)`, as the 32-bit pattern of the `LONG`. -/
  GetWindowStyle : HWND → Nat
  /-- Result of `DwmGetWindowAttribute(hwnd, DWMWA_CLOAKED, &cloaked, ..)`: the
  `HRESULT` and the value of `cloaked` after the call. -/
  DwmGetWindowAttributeCloaked : HWND → Int × Nat
  /-- Result of `GetWindowTextLengthW(hwnd)`. -/
  GetWindowTextLengthW : HWND → Int
  /-- The text of the window, as `GetWindowTextW` reports it. -/
  GetWindowTextW : HWND → String
  /-- The top-level windows that `EnumWindows` visits, in order. -/
  EnumWindows : List HWND

/-- The test `SUCCEEDED(hr)`. -/
def SUCCEEDED (hr : Int) : Bool := decide (0 ≤ hr)

/-! ## The filter -/

/-- The NUL-terminated string that a callee reads through `s.c_str()`: the characters of
the wide string before its first NUL character. -/
def c_str (s : String) : String :=
  ⟨s.data.takeWhile (fun ch => ch ≠ Char.ofNat 0)⟩

/-- The function `wcscmp` on two NUL-terminated strings, as far as the code reads its
result: `0` when they are equal, and `1` in place of every other result. -/
def wcscmp (a b : String) : Int :=
  if a = b then 0 else 1

/-- The function `IsCapturableWindow` of `WindowList.cpp`. -/
def IsCapturableWindow (os : Win32) (window : WindowInfo) : Bool :=
  let hwnd := window.WindowHandle
  let shellWindow := os.GetShellWindow
  let title := window.Title
  if hwnd = shellWindow then false
  else if title.length = 0 then false
  else if !os.IsWindowVisible hwnd then false
  else if os.GetAncestorRoot hwnd ≠ hwnd then false
  else
    let style := os.GetWindowStyle hwnd
    if !(style &&& WS_DISABLED != WS_DISABLED) then false
    else
      let cloaked := os.DwmGetWindowAttributeCloaked hwnd
      if SUCCEEDED cloaked.1 && cloaked.2 == DWM_CLOAKED_SHELL then false
      else if wcscmp (c_str title) "Task View" = 0 then false
      else true

/-! ## Combo boxes -/

/-- The three messages that the registry sends to a combo box; the text of
`CB_ADDSTRING` is the NUL-terminated string behind the pointer in `LPARAM`. -/
inductive ComboBoxMessage where
  | CB_ADDSTRING (text : String)
  | CB_DELETESTRING (index : Nat)
  | CB_RESETCONTENT
deriving DecidableEq, Repr

/-- The combo boxes of the desktop: the entries of each one, and the log of the
messages sent so far. -/
structure Desktop where
  items : HWND → List String
  sent : List (HWND × ComboBoxMessage)

/-- The call `SendMessageW(comboBox, msg, ..)`: `CB_RESETCONTENT` clears the
list and returns `CB_OKAY`, `CB_ADDSTRING` appends at the end and returns the
index of the new entry, `CB_DELETESTRING i` removes the entry at index `i` and
returns the number of entries left, or returns `CB_ERR` when there is no such
entry. -/
def SendMessageW (d : Desktop) (comboBox : HWND) (msg : ComboBoxMessage) : Desktop × Int :=
  let log := d.sent ++ [(comboBox, msg)]
  let old := d.items comboBox
  match msg with
  | .CB_ADDSTRING text =>
      (⟨Function.update d.items comboBox (old ++ [text]), log⟩, (old.length : Int))
  | .CB_DELETESTRING index =>
      if index < old.length then
        (⟨Function.update d.items comboBox (old.eraseIdx index), log⟩, (old.length : Int) - 1)
      else (⟨d.items, log⟩, CB_ERR)
  | .CB_RESETCONTENT =>
      (⟨Function.update d.items comboBox [], log⟩, 0)

/-- What a call can throw. -/
inductive Exception where
  | hresult_error (code : Int)
  | std_exception (what : String)
deriving DecidableEq, Repr

/-- The function `winrt::check_hresult`: throws on a negative result. -/
def check_hresult (result : Int) : Except Exception Unit :=
  if result < 0 then .error (.hresult_error result) else .ok ()

/-- The messages received by one combo box, in order. -/
def Desktop.received (d : Desktop) (comboBox : HWND) : List ComboBoxMessage :=
  (d.sent.filter (fun m => m.1 = comboBox)).map Prod.snd

/-! ## The registry -/

/-- The fields of `WindowList`. -/
structure WindowList where
  m_windows : List WindowInfo
  m_seenWindows : Finset HWND
  m_comboBoxes : List HWND

/-- The state after a call of a method of `WindowList`, with what the call returned
or threw. -/
structure Call (α : Type) where
  list : WindowList
  desktop : Desktop
  ret : Except Exception α

/-- The loop `for (auto& comboBox : m_comboBoxes) check_hresult(SendMessageW(comboBox, msg))`. -/
def sendToAll (msg : ComboBoxMessage) : List HWND → Desktop → Desktop × Except Exception Unit
  | [], d => (d, .ok ())
  | comboBox :: rest, d =>
      let r := SendMessageW d comboBox msg
      match check_hresult r.2 with
      | .error e => (r.1, .error e)
      | .ok _ => sendToAll msg rest r.1

/-- The method `WindowList::AddWindow`. -/
def AddWindow (wl : WindowList) (d : Desktop) (info : WindowInfo) : Call Unit :=
  if info.WindowHandle ∉ wl.m_seenWindows then
    let wl1 : WindowList :=
      { wl with
        m_windows := wl.m_windows ++ [info]
        m_seenWindows := insert info.WindowHandle wl.m_seenWindows }
    let r := sendToAll (.CB_ADDSTRING (c_str info.Title)) wl.m_comboBoxes d
    ⟨wl1, r.1, r.2⟩
  else ⟨wl, d, .ok ()⟩

/-- The scan of `RemoveWindow`: the index of the first window with the handle, or
the length of the sequence when there is none. -/
def scanIndex (handle : HWND) : List WindowInfo → Nat
  | [] => 0
  | window :: rest => if window.WindowHandle = handle then 0 else scanIndex handle rest + 1

/-- The method `WindowList::RemoveWindow`. When the handle is in the set and not
in the sequence, `m_windows.erase` is given the end iterator, which C++ leaves
undefined; `List.eraseIdx` then leaves the sequence as it is (no state reached
from the empty registry is of this kind, see `consistent_runCalls`). -/
def RemoveWindow (wl : WindowList) (d : Desktop) (info : WindowInfo) : Call Bool :=
  if info.WindowHandle ∈ wl.m_seenWindows then
    let index := scanIndex info.WindowHandle wl.m_windows
    let wl1 : WindowList :=
      { wl with
        m_seenWindows := wl.m_seenWindows.erase info.WindowHandle
        m_windows := wl.m_windows.eraseIdx index }
    let r := sendToAll (.CB_DELETESTRING index) wl.m_comboBoxes d
    match r.2 with
    | .error e => ⟨wl1, r.1, .error e⟩
    | .ok _ => ⟨wl1, r.1, .ok (decide ((0 : Int) ≤ index))⟩
  else ⟨wl, d, .ok false⟩

/-- The loop of `ForceUpdateComboBox` over `m_windows`. -/
def addTitles (comboBoxHandle : HWND) : List WindowInfo → Desktop → Desktop × Except Exception Unit
  | [], d => (d, .ok ())
  | window :: rest, d =>
      let r := SendMessageW d comboBoxHandle (.CB_ADDSTRING (c_str window.Title))
      match check_hresult r.2 with
      | .error e => (r.1, .error e)
      | .ok _ => addTitles comboBoxHandle rest r.1

/-- The method `WindowList::ForceUpdateComboBox`. -/
def ForceUpdateComboBox (wl : WindowList) (d : Desktop) (comboBoxHandle : HWND) : Call Unit :=
  let r := SendMessageW d comboBoxHandle .CB_RESETCONTENT
  match check_hresult r.2 with
  | .error e => ⟨wl, r.1, .error e⟩
  | .ok _ =>
      let r1 := addTitles comboBoxHandle wl.m_windows r.1
      ⟨wl, r1.1, r1.2⟩

/-- Modelled from the spec: the constructor `WindowInfo(hwnd)` of `WindowList.h`,
which is not among the sources: the handle, and the text of the window. -/
def WindowInfo.ofHwnd (os : Win32) (hwnd : HWND) : WindowInfo :=
  ⟨hwnd, os.GetWindowTextW hwnd⟩

/-- A registry whose members are default-constructed. -/
def WindowList.empty : WindowList := ⟨[], ∅, []⟩

/-- The callback that the constructor hands to `EnumWindows`. -/
def enumWindowsProc (os : Win32) (wl : WindowList) (d : Desktop) (hwnd : HWND) : Call Unit :=
  if os.GetWindowTextLengthW hwnd > 0 then
    let window := WindowInfo.ofHwnd os hwnd
    if !IsCapturableWindow os window then ⟨wl, d, .ok ()⟩
    else AddWindow wl d window
  else ⟨wl, d, .ok ()⟩

/-- The enumeration `EnumWindows(callback, this)`: the callback always returns `TRUE`,
so that every window is visited unless an exception leaves the enumeration. -/
def enumWindows (os : Win32) : List HWND → WindowList → Desktop → Call Unit
  | [], wl, d => ⟨wl, d, .ok ()⟩
  | hwnd :: rest, wl, d =>
      let r := enumWindowsProc os wl d hwnd
      match r.ret with
      | .error e => ⟨r.list, r.desktop, .error e⟩
      | .ok _ => enumWindows os rest r.list r.desktop

/-- The constructor `WindowList::WindowList`; `WindowListForThread` tells whether the
thread already has a registry. -/
def WindowList.construct (os : Win32) (WindowListForThread : Bool) (d : Desktop) : Call Unit :=
  if WindowListForThread then
    ⟨WindowList.empty, d, .error (.std_exception "WindowList already exists for this thread!")⟩
  else enumWindows os os.EnumWindows WindowList.empty d

/-- One event delivered to the callback that the constructor hands to `SetWinEventHook`. -/
structure WinEvent where
  event : Nat
  hwnd : HWND
  objectId : Int
  childId : Int
deriving DecidableEq, Repr

/-- The callback that the constructor hands to `SetWinEventHook`. -/
def WinEventProc (os : Win32) (wl : WindowList) (d : Desktop) (e : WinEvent) : Call Unit :=
  if e.event = EVENT_OBJECT_DESTROY ∧ e.childId = CHILDID_SELF then
    let r := RemoveWindow wl d (WindowInfo.ofHwnd os e.hwnd)
    ⟨r.list, r.desktop, r.ret.map (fun _ => ())⟩
  else if e.objectId = OBJID_WINDOW ∧ e.childId = CHILDID_SELF ∧ e.hwnd ≠ 0 ∧
      os.GetAncestorRoot e.hwnd = e.hwnd ∧ os.GetWindowTextLengthW e.hwnd > 0 ∧
      (e.event = EVENT_OBJECT_SHOW ∨ e.event = EVENT_OBJECT_UNCLOAKED) then
    let window := WindowInfo.ofHwnd os e.hwnd
    if IsCapturableWindow os window then AddWindow wl d window
    else ⟨wl, d, .ok ()⟩
  else ⟨wl, d, .ok ()⟩

/-- The events delivered one after the other; an exception that leaves the callback
ends the run. -/
def runEvents (os : Win32) : List WinEvent → WindowList → Desktop → Call Unit
  | [], wl, d => ⟨wl, d, .ok ()⟩
  | e :: rest, wl, d =>
      let r := WinEventProc os wl d e
      match r.ret with
      | .error x => ⟨r.list, r.desktop, .error x⟩
      | .ok _ => runEvents os rest r.list r.desktop

/-- A call of one of the two mutators of the registry. -/
inductive RegistryCall where
  | add (info : WindowInfo)
  | remove (info : WindowInfo)
deriving DecidableEq, Repr

/-- One call of a mutator, its return value dropped. -/
def RegistryCall.run (wl : WindowList) (d : Desktop) : RegistryCall → Call Unit
  | .add info => AddWindow wl d info
  | .remove info =>
      let r := RemoveWindow wl d info
      ⟨r.list, r.desktop, r.ret.map (fun _ => ())⟩

/-- A sequence of calls of the mutators; the state is threaded through all of them,
also past a call that threw, and the result is the first exception if there is one. -/
def runCalls : List RegistryCall → WindowList → Desktop → Call Unit
  | [], wl, d => ⟨wl, d, .ok ()⟩
  | c :: rest, wl, d =>
      let r := c.run wl d
      let r1 := runCalls rest r.list r.desktop
      match r.ret with
      | .error x => ⟨r1.list, r1.desktop, .error x⟩
      | .ok _ => r1

/-- The handles of the sequence, in order. -/
def WindowList.handles (wl : WindowList) : List HWND :=
  wl.m_windows.map WindowInfo.WindowHandle

/-- The titles of the sequence, in order, each as the NUL-terminated string that
`Title.c_str()` gives. -/
def WindowList.titles (wl : WindowList) : List String :=
  wl.m_windows.map (fun w => c_str w.Title)

/-- The invariant of the registry: the sequence and the set hold the same handles,
and no handle is twice in the sequence. -/
def WindowList.Consistent (wl : WindowList) : Prop :=
  (∀ h, h ∈ wl.handles ↔ h ∈ wl.m_seenWindows) ∧ wl.handles.Nodup

/-- Every combo box has at least as many entries as the sequence has windows, once
for each time it is attached. -/
def Roomy (wl : WindowList) (d : Desktop) : Prop :=
  ∀ c, wl.m_comboBoxes.count c * wl.m_windows.length ≤ (d.items c).length

/-! ## The capture orchestrator -/

/-- The pixel formats of `winrt::DirectXPixelFormat`: the two that `App.cpp` names,
and all others by their code. -/
inductive DirectXPixelFormat where
  | B8G8R8A8UIntNormalized
  | R16G16B16A16Float
  | other (code : Nat)
deriving DecidableEq, Repr

/-- The enumeration `SimpleImageEncoder::SupportedFormats`. -/
inductive SupportedFormats where
  | Png
  | Jpg
  | Jxr
deriving DecidableEq, Repr

/-- A capture item (a window or a monitor), by an identifier. -/
structure GraphicsCaptureItem where
  id : Nat
deriving DecidableEq, Repr

/-- A file chosen in the save picker: its path and what `FileType()` returns. -/
structure StorageFile where
  path : String
  FileType : String
deriving DecidableEq, Repr

/-- A stream returned by `OpenAsync`, by an identifier. -/
structure Stream where
  id : Nat
deriving DecidableEq, Repr

/-- A frame returned by `CaptureSnapshot::TakeAsync`, by an identifier. -/
structure Frame where
  id : Nat
deriving DecidableEq, Repr

/-- Modelled from the spec: the session class `SimpleCapture`, which is not among the
sources: a session owns a capture item, a pixel format, a cursor-visibility flag and a
border-visibility flag. -/
structure SimpleCapture where
  CaptureItem : GraphicsCaptureItem
  pixelFormat : DirectXPixelFormat
  cursorEnabled : Bool
  borderRequired : Bool
deriving DecidableEq, Repr

/-- The fields of `App` that the session-dependent operations read or write;
`m_brushSurface` is the surface set on `m_brush`. -/
structure App where
  m_capture : Option SimpleCapture
  m_pixelFormat : DirectXPixelFormat
  m_brushSurface : Option GraphicsCaptureItem
deriving DecidableEq, Repr

/-- The calls that the orchestrator makes on its collaborators. -/
inductive Effect where
  | SuggestedStartLocation_PicturesLibrary
  | SuggestedFileName (name : String)
  | DefaultFileExtension (ext : String)
  | FileTypeChoices_Clear
  | FileTypeChoices_Insert (label : String) (extensions : List String)
  | PickSaveFileAsync
  | MessageDialog_ShowAsync (text : String)
  | OpenAsync_ReadWrite (file : StorageFile)
  | TakeAsync (item : GraphicsCaptureItem) (pixelFormat : DirectXPixelFormat)
  | EncodeImage (frame : Frame) (stream : Stream) (format : SupportedFormats)
  | Close
  | RequestAccessAsync_Borderless
deriving DecidableEq, Repr

/-- What the collaborators of `TakeSnapshotAsync` answer: the file that the user picks
(none when the picker is dismissed), and the results of opening the file, capturing a
frame and encoding it, each of which can throw. -/
structure Platform where
  PickSaveFileAsync : Option StorageFile
  OpenAsync : StorageFile → Except Exception Stream
  TakeAsync : GraphicsCaptureItem → DirectXPixelFormat → Except Exception Frame
  EncodeImage : Frame → Stream → SupportedFormats → Except Exception Unit

/-- The state after a call of a method of `App`, the calls it made on its
collaborators, in order, and what it returned or threw. -/
structure AppCall (α : Type) where
  app : App
  effects : List Effect
  ret : Except Exception α

/-- The calls by which `TakeSnapshotAsync` sets up and shows the save picker. -/
def savePickerEffects : List Effect :=
  [ .SuggestedStartLocation_PicturesLibrary,
    .SuggestedFileName "snapshot",
    .DefaultFileExtension ".png",
    .FileTypeChoices_Clear,
    .FileTypeChoices_Insert "PNG image" [".png"],
    .FileTypeChoices_Insert "JPG image" [".jpg"],
    .FileTypeChoices_Insert "JXR image" [".jxr"],
    .PickSaveFileAsync ]

/-- The if-else chain of `TakeSnapshotAsync` that sets `fileFormat` and `pixelFormat`
from the extension of the file; `none` is its last branch, "Unsupported". -/
def formatForExtension (fileExtension : String) : Option (SupportedFormats × DirectXPixelFormat) :=
  if fileExtension = ".png" then
    some (.Png, .B8G8R8A8UIntNormalized)
  else if fileExtension = ".jpg" ∨ fileExtension = ".jpeg" then
    some (.Jpg, .B8G8R8A8UIntNormalized)
  else if fileExtension = ".jxr" then
    some (.Jxr, .R16G16B16A16Float)
  else none

/-- The method `App::TakeSnapshotAsync`, its suspension points run one after the other. -/
def App.TakeSnapshotAsync (p : Platform) (app : App) : AppCall (Option StorageFile) :=
  match app.m_capture with
  | none => ⟨app, [], .ok none⟩
  | some capture =>
    let item := capture.CaptureItem
    match p.PickSaveFileAsync with
    | none => ⟨app, savePickerEffects, .ok none⟩
    | some file =>
      match formatForExtension file.FileType with
      | none =>
          ⟨app, savePickerEffects ++ [.MessageDialog_ShowAsync "Unsupported file format!"], .ok none⟩
      | some (fileFormat, pixelFormat) =>
        match p.OpenAsync file with
        | .error x => ⟨app, savePickerEffects ++ [.OpenAsync_ReadWrite file], .error x⟩
        | .ok stream =>
          match p.TakeAsync item pixelFormat with
          | .error x =>
              ⟨app, savePickerEffects ++ [.OpenAsync_ReadWrite file, .TakeAsync item pixelFormat],
                .error x⟩
          | .ok frame =>
            match p.EncodeImage frame stream fileFormat with
            | .error x =>
                ⟨app, savePickerEffects ++ [.OpenAsync_ReadWrite file, .TakeAsync item pixelFormat,
                  .EncodeImage frame stream fileFormat], .error x⟩
            | .ok _ =>
                ⟨app, savePickerEffects ++ [.OpenAsync_ReadWrite file, .TakeAsync item pixelFormat,
                  .EncodeImage frame stream fileFormat], .ok (some file)⟩

/-- The method `App::StopCapture`. -/
def App.StopCapture (app : App) : AppCall Unit :=
  match app.m_capture with
  | some _ => ⟨{ app with m_capture := none, m_brushSurface := none }, [.Close], .ok ()⟩
  | none => ⟨app, [], .ok ()⟩

/-- The query `App::IsCursorEnabled()`. -/
def App.IsCursorEnabled (app : App) : AppCall Bool :=
  match app.m_capture with
  | some capture => ⟨app, [], .ok capture.cursorEnabled⟩
  | none => ⟨app, [], .ok false⟩

/-- The setter `App::IsCursorEnabled(bool)`. -/
def App.IsCursorEnabled_set (app : App) (value : Bool) : AppCall Unit :=
  match app.m_capture with
  | some capture =>
      ⟨{ app with m_capture := some { capture with cursorEnabled := value } }, [], .ok ()⟩
  | none => ⟨app, [], .ok ()⟩

/-- The query `App::IsBorderRequired()`. -/
def App.IsBorderRequired (app : App) : AppCall Bool :=
  match app.m_capture with
  | some capture => ⟨app, [], .ok capture.borderRequired⟩
  | none => ⟨app, [], .ok false⟩

/-- The setter `App::IsBorderRequired(bool)`. -/
def App.IsBorderRequired_set (app : App) (value : Bool) : AppCall Unit :=
  match app.m_capture with
  | some capture =>
      ⟨{ app with m_capture := some { capture with borderRequired := value } },
        [.RequestAccessAsync_Borderless], .ok ()⟩
  | none => ⟨app, [], .ok ()⟩

/-! ## The filter: theorems -/

theorem and_WS_DISABLED (style : Nat) :
    (style &&& WS_DISABLED = WS_DISABLED) ↔ style.testBit 27 = true := by
  have h : WS_DISABLED = 2 ^ 27 := by decide
  rw [h, Nat.and_two_pow]
  cases style.testBit 27 <;> simp

theorem IsCapturableWindow_eq_true (os : Win32) (window : WindowInfo) :
    IsCapturableWindow os window = true ↔
      (window.WindowHandle ≠ os.GetShellWindow ∧
       window.Title ≠ "" ∧
       os.IsWindowVisible window.WindowHandle = true ∧
       os.GetAncestorRoot window.WindowHandle = window.WindowHandle ∧
       (os.GetWindowStyle window.WindowHandle).testBit 27 = false ∧
       ¬ (0 ≤ (os.DwmGetWindowAttributeCloaked window.WindowHandle).1 ∧
          (os.DwmGetWindowAttributeCloaked window.WindowHandle).2 = DWM_CLOAKED_SHELL) ∧
       c_str window.Title ≠ "Task View") := by
  have hlen : window.Title.length = 0 ↔ window.Title = "" := by
    constructor
    · intro h
      have h1 : window.Title.data = [] := List.length_eq_zero.mp h
      exact String.ext h1
    · intro h
      rw [h]
      rfl
  have hbit := and_WS_DISABLED (os.GetWindowStyle window.WindowHandle)
  unfold IsCapturableWindow SUCCEEDED wcscmp
  by_cases h1 : window.WindowHandle = os.GetShellWindow
  · simp [h1]
  by_cases h2 : window.Title = ""
  · simp [h1, h2]
  have h2l : ¬ window.Title.length = 0 := fun h => h2 (hlen.mp h)
  by_cases h3 : os.IsWindowVisible window.WindowHandle = true
  swap
  · simp [h1, h2l, h3]
  by_cases h4 : os.GetAncestorRoot window.WindowHandle = window.WindowHandle
  swap
  · simp [h1, h2l, h3, h4]
  by_cases h5 : (os.GetWindowStyle window.WindowHandle).testBit 27 = true
  · have h5a := hbit.mpr h5
    simp [h1, h2l, h3, h4, h5, h5a]
  have h5a : ¬ (os.GetWindowStyle window.WindowHandle &&& WS_DISABLED = WS_DISABLED) :=
    fun h => h5 (hbit.mp h)
  have h5b : (os.GetWindowStyle window.WindowHandle).testBit 27 = false := by
    simpa using h5
  by_cases h6 : 0 ≤ (os.DwmGetWindowAttributeCloaked window.WindowHandle).1 ∧
      (os.DwmGetWindowAttributeCloaked window.WindowHandle).2 = DWM_CLOAKED_SHELL
  · simp [h1, h2l, h3, h4, h5a, h5b, h6.1, h6.2]
  by_cases h7 : c_str window.Title = "Task View"
  · simp [h1, h2l, h3, h4, h5a, h5b, h7]
  · have h6a : ¬ (0 ≤ (os.DwmGetWindowAttributeCloaked window.WindowHandle).1 ∧
        (os.DwmGetWindowAttributeCloaked window.WindowHandle).2 = DWM_CLOAKED_SHELL) := h6
    simp only [not_and] at h6
    simp [h1, h2, h2l, h3, h4, h5a, h5b, h7, h6a]

/-- C5, as amended: `IsCapturableWindow` returns true exactly when seven conditions hold:
the handle is not the shell window, the title is not empty, the window is visible, it is
its own root ancestor, its `WS_DISABLED` bit is clear, the cloak query did not both
succeed and report `DWM_CLOAKED_SHELL`, and the title read as a NUL-terminated string (its
characters before the first NUL, which is what `wcscmp` reads of `title.c_str()`) is not
"Task View". -/
theorem isCapturableWindow_iff (os : Win32) (window : WindowInfo) :
    IsCapturableWindow os window = true ↔
      (window.WindowHandle ≠ os.GetShellWindow ∧
       window.Title ≠ "" ∧
       os.IsWindowVisible window.WindowHandle = true ∧
       os.GetAncestorRoot window.WindowHandle = window.WindowHandle ∧
       (os.GetWindowStyle window.WindowHandle).testBit 27 = false ∧
       ¬ (0 ≤ (os.DwmGetWindowAttributeCloaked window.WindowHandle).1 ∧
          (os.DwmGetWindowAttributeCloaked window.WindowHandle).2 = DWM_CLOAKED_SHELL) ∧
       c_str window.Title ≠ "Task View") := by
  exact IsCapturableWindow_eq_true os window

/-- C5 as stated fails at the window 1 whose title is "Task View" followed by a NUL
character, on a desktop where the shell window is 0 and window 1 is visible, top-level,
enabled and not cloaked: the seven conditions of the claim hold, the title being ten
characters long and so not exactly "Task View", and `IsCapturableWindow` returns false. -/
theorem isCapturableWindow_not_exact_title :
    (1 : HWND) ≠ (⟨0, fun _ => true, fun h => h, fun _ => 0, fun _ => (0, 0), fun _ => 10,
      fun _ => "Task View\x00", [1]⟩ : Win32).GetShellWindow ∧
    ("Task View\x00" : String) ≠ "" ∧
    (⟨0, fun _ => true, fun h => h, fun _ => 0, fun _ => (0, 0), fun _ => 10,
      fun _ => "Task View\x00", [1]⟩ : Win32).IsWindowVisible 1 = true ∧
    (⟨0, fun _ => true, fun h => h, fun _ => 0, fun _ => (0, 0), fun _ => 10,
      fun _ => "Task View\x00", [1]⟩ : Win32).GetAncestorRoot 1 = 1 ∧
    ((⟨0, fun _ => true, fun h => h, fun _ => 0, fun _ => (0, 0), fun _ => 10,
      fun _ => "Task View\x00", [1]⟩ : Win32).GetWindowStyle 1).testBit 27 = false ∧
    ¬ (0 ≤ ((⟨0, fun _ => true, fun h => h, fun _ => 0, fun _ => (0, 0), fun _ => 10,
      fun _ => "Task View\x00", [1]⟩ : Win32).DwmGetWindowAttributeCloaked 1).1 ∧
      ((⟨0, fun _ => true, fun h => h, fun _ => 0, fun _ => (0, 0), fun _ => 10,
      fun _ => "Task View\x00", [1]⟩ : Win32).DwmGetWindowAttributeCloaked 1).2 = DWM_CLOAKED_SHELL) ∧
    ("Task View\x00" : String) ≠ "Task View" ∧
    ("Task View\x00" : String).length = 10 ∧
    c_str "Task View\x00" = "Task View" ∧
    IsCapturableWindow
      ⟨0, fun _ => true, fun h => h, fun _ => 0, fun _ => (0, 0), fun _ => 10,
        fun _ => "Task View\x00", [1]⟩
      ⟨1, "Task View\x00"⟩ = false := by
  decide

/-! ## Messages to the combo boxes: lemmas -/

theorem check_hresult_ok (result : Int) (h : 0 ≤ result) : check_hresult result = .ok () := by
  unfold check_hresult
  have : ¬ result < 0 := not_lt.mpr h
  simp [this]

theorem check_hresult_CB_ERR : check_hresult CB_ERR = .error (.hresult_error CB_ERR) := by
  simp [check_hresult, CB_ERR]

theorem sendToAll_add (text : String) (cbs : List HWND) (d : Desktop) :
    (sendToAll (.CB_ADDSTRING text) cbs d).2 = .ok () ∧
    (sendToAll (.CB_ADDSTRING text) cbs d).1.sent =
      d.sent ++ cbs.map (fun c => (c, ComboBoxMessage.CB_ADDSTRING text)) ∧
    ∀ c, (sendToAll (.CB_ADDSTRING text) cbs d).1.items c =
      d.items c ++ List.replicate (cbs.count c) text := by
  induction cbs generalizing d with
  | nil => simp [sendToAll]
  | cons c0 rest ih =>
    have hok : check_hresult (SendMessageW d c0 (.CB_ADDSTRING text)).2 = .ok () := by
      apply check_hresult_ok
      simp [SendMessageW]
    obtain ⟨h1, h2, h3⟩ := ih (SendMessageW d c0 (.CB_ADDSTRING text)).1
    simp only [sendToAll, hok]
    refine ⟨h1, ?_, ?_⟩
    · rw [h2]
      simp [SendMessageW]
    · intro c
      rw [h3 c]
      by_cases hc : c = c0
      · subst hc
        simp [SendMessageW, List.replicate_succ]
      · have hc1 : ¬ c0 = c := fun h => hc h.symm
        simp [SendMessageW, Function.update_noteq hc, List.count_cons, hc1]

theorem sendToAll_sent (msg : ComboBoxMessage) (cbs : List HWND) (d : Desktop)
    (hok : (sendToAll msg cbs d).2 = .ok ()) :
    (sendToAll msg cbs d).1.sent = d.sent ++ cbs.map (fun c => (c, msg)) := by
  induction cbs generalizing d with
  | nil => simp [sendToAll]
  | cons c0 rest ih =>
    simp only [sendToAll] at hok ⊢
    cases hc : check_hresult (SendMessageW d c0 msg).2 with
    | error e => simp [hc] at hok
    | ok u =>
      simp only [hc] at hok ⊢
      rw [ih _ hok]
      cases msg <;> simp [SendMessageW]
      split <;> simp

theorem sendToAll_delete_items (index : Nat) (cbs : List HWND) (d : Desktop)
    (hok : (sendToAll (.CB_DELETESTRING index) cbs d).2 = .ok ()) (c : HWND) :
    (sendToAll (.CB_DELETESTRING index) cbs d).1.items c =
      (fun l => l.eraseIdx index)^[cbs.count c] (d.items c) := by
  induction cbs generalizing d with
  | nil => simp [sendToAll]
  | cons c0 rest ih =>
    simp only [sendToAll] at hok ⊢
    by_cases hlt : index < (d.items c0).length
    · have hs : SendMessageW d c0 (.CB_DELETESTRING index) =
          (⟨Function.update d.items c0 ((d.items c0).eraseIdx index),
            d.sent ++ [(c0, .CB_DELETESTRING index)]⟩, ((d.items c0).length : Int) - 1) := by
        simp [SendMessageW, hlt]
      have hc : check_hresult (SendMessageW d c0 (.CB_DELETESTRING index)).2 = .ok () := by
        apply check_hresult_ok
        rw [hs]
        simp only
        omega
      simp only [hc] at hok ⊢
      rw [ih _ hok, hs]
      by_cases hcc : c = c0
      · subst hcc
        simp [List.count_cons]
      · have hc1 : ¬ c0 = c := fun h => hcc h.symm
        simp [Function.update_noteq hcc, List.count_cons, hc1]
    · have hs : (SendMessageW d c0 (.CB_DELETESTRING index)).2 = CB_ERR := by
        simp [SendMessageW, hlt]
      rw [hs, check_hresult_CB_ERR] at hok
      simp at hok

theorem sendToAll_delete_ok (index : Nat) (cbs : List HWND) (d : Desktop)
    (h : ∀ c ∈ cbs, index + cbs.count c ≤ (d.items c).length) :
    (sendToAll (.CB_DELETESTRING index) cbs d).2 = .ok () := by
  induction cbs generalizing d with
  | nil => simp [sendToAll]
  | cons c0 rest ih =>
    have h0 := h c0 (List.mem_cons_self _ _)
    simp only [List.count_cons_self] at h0
    have hlt : index < (d.items c0).length := by omega
    have hs : SendMessageW d c0 (.CB_DELETESTRING index) =
        (⟨Function.update d.items c0 ((d.items c0).eraseIdx index),
          d.sent ++ [(c0, .CB_DELETESTRING index)]⟩, ((d.items c0).length : Int) - 1) := by
      simp [SendMessageW, hlt]
    have hc : check_hresult (SendMessageW d c0 (.CB_DELETESTRING index)).2 = .ok () := by
      apply check_hresult_ok
      rw [hs]
      simp only
      omega
    simp only [sendToAll, hc]
    apply ih
    intro c hc'
    rw [hs]
    by_cases hcc : c = c0
    · subst hcc
      simp only [Function.update_same, List.length_eraseIdx, hlt, if_true]
      omega
    · have h1 := h c (List.mem_cons_of_mem _ hc')
      have hc1 : ¬ c0 = c := fun h => hcc h.symm
      simp only [List.count_cons, beq_iff_eq, hc1, if_false, Nat.add_zero] at h1
      simp only [Function.update_noteq hcc]
      exact h1

theorem length_iterate_eraseIdx (index k : Nat) (l : List String) :
    l.length - k ≤ ((fun l : List String => l.eraseIdx index)^[k] l).length := by
  induction k generalizing l with
  | zero => simp
  | succ k ih =>
    rw [Function.iterate_succ_apply]
    have h1 := ih (l.eraseIdx index)
    have h2 : l.length - 1 ≤ (l.eraseIdx index).length := by
      rw [List.length_eraseIdx]
      split <;> omega
    omega

/-! ## The registry: lemmas -/

theorem scanIndex_split (handle : HWND) (ws : List WindowInfo)
    (h : handle ∈ ws.map WindowInfo.WindowHandle) :
    ∃ pre w post, ws = pre ++ w :: post ∧ w.WindowHandle = handle ∧
      (∀ x ∈ pre, x.WindowHandle ≠ handle) ∧ scanIndex handle ws = pre.length := by
  induction ws with
  | nil => simp at h
  | cons w0 rest ih =>
    by_cases h0 : w0.WindowHandle = handle
    · exact ⟨[], w0, rest, rfl, h0, by simp, by simp [scanIndex, h0]⟩
    · have hrest : handle ∈ rest.map WindowInfo.WindowHandle := by
        simp only [List.map_cons, List.mem_cons] at h
        rcases h with h | h
        · exact absurd h.symm h0
        · exact h
      obtain ⟨pre, w, post, e, hw, hpre, hidx⟩ := ih hrest
      refine ⟨w0 :: pre, w, post, by simp [e], hw, ?_, by simp [scanIndex, h0, hidx]⟩
      intro x hx
      simp only [List.mem_cons] at hx
      rcases hx with hx | hx
      · rw [hx]
        exact h0
      · exact hpre x hx

theorem eraseIdx_split {α : Type} (pre : List α) (w : α) (post : List α) :
    (pre ++ w :: post).eraseIdx pre.length = pre ++ post := by
  induction pre with
  | nil => simp
  | cons a pre ih => simp [ih]

theorem AddWindow_list (wl : WindowList) (d : Desktop) (info : WindowInfo) :
    (AddWindow wl d info).list =
      if info.WindowHandle ∉ wl.m_seenWindows then
        { wl with
          m_windows := wl.m_windows ++ [info]
          m_seenWindows := insert info.WindowHandle wl.m_seenWindows }
      else wl := by
  unfold AddWindow
  split <;> rfl

theorem RemoveWindow_list (wl : WindowList) (d : Desktop) (info : WindowInfo) :
    (RemoveWindow wl d info).list =
      if info.WindowHandle ∈ wl.m_seenWindows then
        { wl with
          m_seenWindows := wl.m_seenWindows.erase info.WindowHandle
          m_windows := wl.m_windows.eraseIdx (scanIndex info.WindowHandle wl.m_windows) }
      else wl := by
  unfold RemoveWindow
  split
  · simp only
    split <;> rfl
  · rfl

theorem consistent_AddWindow (wl : WindowList) (d : Desktop) (info : WindowInfo)
    (hc : wl.Consistent) : (AddWindow wl d info).list.Consistent := by
  rw [AddWindow_list]
  by_cases hin : info.WindowHandle ∈ wl.m_seenWindows
  · simpa [hin] using hc
  · obtain ⟨hmem, hnd⟩ := hc
    have hnot : info.WindowHandle ∉ wl.handles := fun h => hin ((hmem _).mp h)
    simp only [hin, not_false_eq_true, if_true]
    constructor
    · intro h
      have := hmem h
      simp only [WindowList.handles] at this ⊢
      simp only [List.map_append, List.map_cons, List.map_nil, List.mem_append,
        List.mem_singleton, Finset.mem_insert]
      rw [this]
      exact or_comm
    · simp only [WindowList.handles] at hnot hnd ⊢
      simp only [List.map_append, List.map_cons, List.map_nil]
      refine List.Nodup.append hnd (List.nodup_singleton _) ?_
      intro x hx hx'
      simp only [List.mem_singleton] at hx'
      subst hx'
      exact hnot hx

theorem consistent_RemoveWindow (wl : WindowList) (d : Desktop) (info : WindowInfo)
    (hc : wl.Consistent) : (RemoveWindow wl d info).list.Consistent := by
  rw [RemoveWindow_list]
  by_cases hin : info.WindowHandle ∈ wl.m_seenWindows
  · obtain ⟨hmem, hnd⟩ := hc
    have hh : info.WindowHandle ∈ wl.m_windows.map WindowInfo.WindowHandle :=
      (hmem _).mpr hin
    obtain ⟨pre, w, post, e, hw, hpre, hidx⟩ := scanIndex_split _ _ hh
    simp only [hin, if_true]
    have herase : wl.m_windows.eraseIdx (scanIndex info.WindowHandle wl.m_windows) =
        pre ++ post := by
      rw [hidx, e, eraseIdx_split]
    simp only [WindowList.Consistent, WindowList.handles, herase] at hmem hnd ⊢
    rw [e] at hmem hnd
    simp only [List.map_append, List.map_cons, hw] at hmem hnd
    have hnd' := List.nodup_middle.mp hnd
    rw [List.nodup_cons] at hnd'
    constructor
    · intro h
      simp only [List.map_append, Finset.mem_erase]
      rw [← hmem h]
      simp only [List.mem_append, List.mem_cons]
      constructor
      · intro hx
        refine ⟨?_, by tauto⟩
        intro heq
        apply hnd'.1
        rw [← heq]
        simpa using hx
      · rintro ⟨hne, hx⟩
        tauto
    · simpa using hnd'.2
  · simpa [hin] using hc

theorem consistent_empty (cbs : List HWND) : WindowList.Consistent ⟨[], ∅, cbs⟩ := by
  simp [WindowList.Consistent, WindowList.handles]

theorem consistent_run (c : RegistryCall) (wl : WindowList) (d : Desktop)
    (hc : wl.Consistent) : (c.run wl d).list.Consistent := by
  cases c with
  | add info => exact consistent_AddWindow wl d info hc
  | remove info => exact consistent_RemoveWindow wl d info hc

theorem runCalls_list (calls : List RegistryCall) (wl : WindowList) (d : Desktop) :
    ∀ c rest, calls = c :: rest →
      (runCalls calls wl d).list = (runCalls rest (c.run wl d).list (c.run wl d).desktop).list ∧
      (runCalls calls wl d).desktop =
        (runCalls rest (c.run wl d).list (c.run wl d).desktop).desktop := by
  intro c rest e
  subst e
  simp only [runCalls]
  split <;> simp

theorem consistent_runCalls (calls : List RegistryCall) (wl : WindowList) (d : Desktop)
    (hc : wl.Consistent) : (runCalls calls wl d).list.Consistent := by
  induction calls generalizing wl d with
  | nil => simpa [runCalls] using hc
  | cons c rest ih =>
    rw [(runCalls_list (c :: rest) wl d c rest rfl).1]
    exact ih _ _ (consistent_run c wl d hc)

theorem AddWindow_ret (wl : WindowList) (d : Desktop) (info : WindowInfo) :
    (AddWindow wl d info).ret = .ok () := by
  unfold AddWindow
  split
  · exact (sendToAll_add (c_str info.Title) wl.m_comboBoxes d).1
  · rfl

theorem AddWindow_desktop (wl : WindowList) (d : Desktop) (info : WindowInfo) :
    (AddWindow wl d info).desktop =
      if info.WindowHandle ∉ wl.m_seenWindows then
        (sendToAll (.CB_ADDSTRING (c_str info.Title)) wl.m_comboBoxes d).1
      else d := by
  unfold AddWindow
  split <;> rfl

theorem AddWindow_present (wl : WindowList) (d : Desktop) (info : WindowInfo)
    (hin : info.WindowHandle ∈ wl.m_seenWindows) : AddWindow wl d info = ⟨wl, d, .ok ()⟩ := by
  simp [AddWindow, hin]

theorem RemoveWindow_absent (wl : WindowList) (d : Desktop) (info : WindowInfo)
    (hin : info.WindowHandle ∉ wl.m_seenWindows) : RemoveWindow wl d info = ⟨wl, d, .ok false⟩ := by
  simp [RemoveWindow, hin]

theorem RemoveWindow_present (wl : WindowList) (d : Desktop) (info : WindowInfo)
    (hc : wl.Consistent) (hin : info.WindowHandle ∈ wl.m_seenWindows)
    (hroom : ∀ c ∈ wl.m_comboBoxes,
      scanIndex info.WindowHandle wl.m_windows + wl.m_comboBoxes.count c ≤ (d.items c).length) :
    ∃ pre w post, wl.m_windows = pre ++ w :: post ∧ w.WindowHandle = info.WindowHandle ∧
      (∀ x ∈ pre, x.WindowHandle ≠ info.WindowHandle) ∧
      scanIndex info.WindowHandle wl.m_windows = pre.length ∧
      (sendToAll (.CB_DELETESTRING pre.length) wl.m_comboBoxes d).2 = .ok () ∧
      RemoveWindow wl d info =
        ⟨⟨pre ++ post, wl.m_seenWindows.erase info.WindowHandle, wl.m_comboBoxes⟩,
          (sendToAll (.CB_DELETESTRING pre.length) wl.m_comboBoxes d).1, .ok true⟩ := by
  have hh : info.WindowHandle ∈ wl.m_windows.map WindowInfo.WindowHandle := (hc.1 _).mpr hin
  obtain ⟨pre, w, post, e, hw, hpre, hidx⟩ := scanIndex_split _ _ hh
  have hok := sendToAll_delete_ok _ _ d hroom
  rw [hidx] at hok
  refine ⟨pre, w, post, e, hw, hpre, hidx, hok, ?_⟩
  have herase : wl.m_windows.eraseIdx pre.length = pre ++ post := by
    rw [e, eraseIdx_split]
  simp [RemoveWindow, hin, hidx, hok, herase]

theorem room_of_roomy (wl : WindowList) (d : Desktop) (index : Nat) (hr : Roomy wl d)
    (hlt : index < wl.m_windows.length) :
    ∀ c ∈ wl.m_comboBoxes, index + wl.m_comboBoxes.count c ≤ (d.items c).length := by
  intro c hc
  have h1 := hr c
  have hk : 0 < wl.m_comboBoxes.count c := List.count_pos_iff.mpr hc
  have h2 : wl.m_comboBoxes.count c * (index + 1) ≤
      wl.m_comboBoxes.count c * wl.m_windows.length := Nat.mul_le_mul_left _ hlt
  have h3 : index ≤ wl.m_comboBoxes.count c * index := Nat.le_mul_of_pos_left _ hk
  rw [Nat.mul_succ] at h2
  omega

theorem roomy_AddWindow (wl : WindowList) (d : Desktop) (info : WindowInfo) (hr : Roomy wl d) :
    Roomy (AddWindow wl d info).list (AddWindow wl d info).desktop := by
  rw [AddWindow_list, AddWindow_desktop]
  by_cases hin : info.WindowHandle ∈ wl.m_seenWindows
  · simpa [hin] using hr
  · simp only [hin, not_false_eq_true, if_true]
    intro c
    have h1 := hr c
    rw [(sendToAll_add (c_str info.Title) wl.m_comboBoxes d).2.2 c]
    simp only [List.length_append, List.length_singleton, List.length_replicate]
    rw [Nat.mul_succ]
    omega

theorem roomy_RemoveWindow (wl : WindowList) (d : Desktop) (info : WindowInfo)
    (hc : wl.Consistent) (hr : Roomy wl d) :
    (∃ b, (RemoveWindow wl d info).ret = .ok b) ∧
    Roomy (RemoveWindow wl d info).list (RemoveWindow wl d info).desktop := by
  by_cases hin : info.WindowHandle ∈ wl.m_seenWindows
  · have hh : info.WindowHandle ∈ wl.m_windows.map WindowInfo.WindowHandle := (hc.1 _).mpr hin
    obtain ⟨pre0, w0, post0, e0, _, _, hidx0⟩ := scanIndex_split _ _ hh
    have hlt : scanIndex info.WindowHandle wl.m_windows < wl.m_windows.length := by
      rw [hidx0, e0]
      simp
    obtain ⟨pre, w, post, e, _, _, _, hok, hrem⟩ :=
      RemoveWindow_present wl d info hc hin (room_of_roomy wl d _ hr hlt)
    rw [hrem]
    refine ⟨⟨true, rfl⟩, ?_⟩
    intro c
    have h1 := hr c
    rw [e] at h1
    simp only [List.length_append, List.length_cons] at h1
    simp only [List.length_append]
    rw [sendToAll_delete_items _ _ _ hok c]
    have h2 := length_iterate_eraseIdx pre.length (wl.m_comboBoxes.count c) (d.items c)
    have h3 : wl.m_comboBoxes.count c * (pre.length + (post.length + 1)) =
        wl.m_comboBoxes.count c * (pre.length + post.length) + wl.m_comboBoxes.count c := by
      ring
    omega
  · rw [RemoveWindow_absent wl d info hin]
    exact ⟨⟨false, rfl⟩, hr⟩

theorem AddWindow_comboBoxes (wl : WindowList) (d : Desktop) (info : WindowInfo) :
    (AddWindow wl d info).list.m_comboBoxes = wl.m_comboBoxes := by
  rw [AddWindow_list]
  split <;> rfl

theorem RemoveWindow_comboBoxes (wl : WindowList) (d : Desktop) (info : WindowInfo) :
    (RemoveWindow wl d info).list.m_comboBoxes = wl.m_comboBoxes := by
  rw [RemoveWindow_list]
  split <;> rfl

theorem run_comboBoxes (c : RegistryCall) (wl : WindowList) (d : Desktop) :
    (c.run wl d).list.m_comboBoxes = wl.m_comboBoxes := by
  cases c with
  | add info => exact AddWindow_comboBoxes wl d info
  | remove info => exact RemoveWindow_comboBoxes wl d info

theorem run_ok (c : RegistryCall) (wl : WindowList) (d : Desktop)
    (hc : wl.Consistent) (hr : Roomy wl d) :
    (c.run wl d).ret = .ok () ∧ Roomy (c.run wl d).list (c.run wl d).desktop := by
  cases c with
  | add info => exact ⟨AddWindow_ret wl d info, roomy_AddWindow wl d info hr⟩
  | remove info =>
    obtain ⟨⟨b, hb⟩, h2⟩ := roomy_RemoveWindow wl d info hc hr
    refine ⟨?_, h2⟩
    simp [RegistryCall.run, hb, Except.map]

theorem runCalls_ok (calls : List RegistryCall) (wl : WindowList) (d : Desktop)
    (hc : wl.Consistent) (hr : Roomy wl d) :
    (runCalls calls wl d).ret = .ok () ∧
    Roomy (runCalls calls wl d).list (runCalls calls wl d).desktop ∧
    (runCalls calls wl d).list.m_comboBoxes = wl.m_comboBoxes := by
  induction calls generalizing wl d with
  | nil => exact ⟨rfl, hr, rfl⟩
  | cons c rest ih =>
    obtain ⟨h1, h2⟩ := run_ok c wl d hc hr
    obtain ⟨h3, h4, h5⟩ := ih _ _ (consistent_run c wl d hc) h2
    simp only [runCalls, h1]
    exact ⟨h3, h4, by rw [h5, run_comboBoxes]⟩

theorem roomy_empty (cbs : List HWND) (d : Desktop) : Roomy ⟨[], ∅, cbs⟩ d := by
  intro c
  simp

theorem received_map (msg : ComboBoxMessage) (cbs : List HWND) (c : HWND) :
    ((cbs.map (fun c' => (c', msg))).filter (fun m => m.1 = c)).map Prod.snd =
      List.replicate (cbs.count c) msg := by
  induction cbs with
  | nil => simp
  | cons c0 rest ih =>
    by_cases hcc : c0 = c
    · simp only [List.map_cons, List.filter_cons, hcc, decide_True, if_true, List.count_cons_self,
        List.replicate_succ, List.cons.injEq, true_and]
      exact ih
    · have hne : (c0 == c) = false := by simpa using hcc
      simp only [List.map_cons, List.filter_cons, hcc, decide_False, List.count_cons, hne]
      simpa using ih

theorem map_eraseIdx {α β : Type} (f : α → β) (l : List α) (i : Nat) :
    (l.eraseIdx i).map f = (l.map f).eraseIdx i := by
  induction l generalizing i with
  | nil => simp
  | cons a l ih =>
    cases i with
    | zero => simp
    | succ i => simp [ih]

theorem addTitles_spec (c : HWND) (ws : List WindowInfo) (d : Desktop) :
    (addTitles c ws d).2 = .ok () ∧
    (addTitles c ws d).1.items c = d.items c ++ ws.map (fun w => c_str w.Title) ∧
    (∀ c', c' ≠ c → (addTitles c ws d).1.items c' = d.items c') ∧
    (addTitles c ws d).1.sent =
      d.sent ++ ws.map (fun w => (c, ComboBoxMessage.CB_ADDSTRING (c_str w.Title))) := by
  induction ws generalizing d with
  | nil => simp [addTitles]
  | cons w rest ih =>
    have hok : check_hresult (SendMessageW d c (.CB_ADDSTRING (c_str w.Title))).2 = .ok () := by
      apply check_hresult_ok
      simp [SendMessageW]
    obtain ⟨h1, h2, h3, h4⟩ := ih (SendMessageW d c (.CB_ADDSTRING (c_str w.Title))).1
    simp only [addTitles, hok]
    refine ⟨h1, ?_, ?_, ?_⟩
    · rw [h2]
      simp [SendMessageW]
    · intro c' hc'
      rw [h3 c' hc']
      simp [SendMessageW, Function.update_noteq hc']
    · rw [h4]
      simp [SendMessageW]

theorem ForceUpdateComboBox_spec (wl : WindowList) (d : Desktop) (c : HWND) :
    (ForceUpdateComboBox wl d c).ret = .ok () ∧
    (ForceUpdateComboBox wl d c).list = wl ∧
    (ForceUpdateComboBox wl d c).desktop.items c = wl.titles ∧
    (∀ c', c' ≠ c → (ForceUpdateComboBox wl d c).desktop.items c' = d.items c') := by
  have hok : check_hresult (SendMessageW d c .CB_RESETCONTENT).2 = .ok () := by
    apply check_hresult_ok
    simp [SendMessageW]
  obtain ⟨h1, h2, h3, _⟩ := addTitles_spec c wl.m_windows (SendMessageW d c .CB_RESETCONTENT).1
  simp only [ForceUpdateComboBox, hok]
  refine ⟨h1, trivial, ?_, ?_⟩
  · rw [h2]
    simp [SendMessageW, WindowList.titles]
  · intro c' hc'
    rw [h3 c' hc']
    simp [SendMessageW, Function.update_noteq hc']

theorem inSync_AddWindow (wl : WindowList) (d : Desktop) (c : HWND) (info : WindowInfo)
    (hatt : wl.m_comboBoxes.count c = 1) (hs : d.items c = wl.titles) :
    (AddWindow wl d info).desktop.items c = (AddWindow wl d info).list.titles := by
  rw [AddWindow_list, AddWindow_desktop]
  by_cases hin : info.WindowHandle ∈ wl.m_seenWindows
  · simpa [hin] using hs
  · simp only [hin, not_false_eq_true, if_true]
    rw [(sendToAll_add (c_str info.Title) wl.m_comboBoxes d).2.2 c, hatt, hs]
    simp [WindowList.titles]

theorem inSync_RemoveWindow (wl : WindowList) (d : Desktop) (c : HWND) (info : WindowInfo)
    (hatt : wl.m_comboBoxes.count c = 1) (hs : d.items c = wl.titles) (b : Bool)
    (hret : (RemoveWindow wl d info).ret = .ok b) :
    (RemoveWindow wl d info).desktop.items c = (RemoveWindow wl d info).list.titles := by
  by_cases hin : info.WindowHandle ∈ wl.m_seenWindows
  · cases hsend : (sendToAll (.CB_DELETESTRING (scanIndex info.WindowHandle wl.m_windows))
        wl.m_comboBoxes d).2 with
    | error e => simp [RemoveWindow, hin, hsend] at hret
    | ok u =>
      have hitems := sendToAll_delete_items _ _ d hsend c
      rw [hatt, hs] at hitems
      simp only [RemoveWindow, hin, if_true, hsend, WindowList.titles]
      rw [hitems]
      simp [WindowList.titles, map_eraseIdx]
  · rw [RemoveWindow_absent wl d info hin]
    exact hs

theorem inSync_runCalls (calls : List RegistryCall) (wl : WindowList) (d : Desktop) (c : HWND)
    (hatt : wl.m_comboBoxes.count c = 1) (hs : d.items c = wl.titles)
    (hret : (runCalls calls wl d).ret = .ok ()) :
    (runCalls calls wl d).desktop.items c = (runCalls calls wl d).list.titles := by
  induction calls generalizing wl d with
  | nil => simpa [runCalls] using hs
  | cons call rest ih =>
    obtain ⟨hl, hd⟩ := runCalls_list (call :: rest) wl d call rest rfl
    rw [hl, hd]
    simp only [runCalls] at hret
    cases hcall : (call.run wl d).ret with
    | error e => simp [hcall] at hret
    | ok u =>
      simp only [hcall] at hret
      apply ih _ _ (by rw [run_comboBoxes]; exact hatt) _ hret
      cases call with
      | add info => exact inSync_AddWindow wl d c info hatt hs
      | remove info =>
        cases hrem : (RemoveWindow wl d info).ret with
        | error e => simp [RegistryCall.run, hrem, Except.map] at hcall
        | ok b => exact inSync_RemoveWindow wl d c info hatt hs b hrem

theorem roomy_of_inSync (wl : WindowList) (d : Desktop) (hnd : wl.m_comboBoxes.Nodup)
    (hs : ∀ c ∈ wl.m_comboBoxes, d.items c = wl.titles) : Roomy wl d := by
  intro c
  by_cases hc : c ∈ wl.m_comboBoxes
  · rw [List.count_eq_one_of_mem hnd hc, hs c hc]
    simp [WindowList.titles]
  · rw [List.count_eq_zero_of_not_mem hc]
    simp

theorem AddWindow_mem (wl : WindowList) (d : Desktop) (info w : WindowInfo)
    (h : w ∈ (AddWindow wl d info).list.m_windows) : w ∈ wl.m_windows ∨ w = info := by
  rw [AddWindow_list] at h
  by_cases hin : info.WindowHandle ∈ wl.m_seenWindows
  · left
    simpa [hin] using h
  · simpa [hin] using h

theorem RemoveWindow_mem (wl : WindowList) (d : Desktop) (info w : WindowInfo)
    (h : w ∈ (RemoveWindow wl d info).list.m_windows) : w ∈ wl.m_windows := by
  rw [RemoveWindow_list] at h
  by_cases hin : info.WindowHandle ∈ wl.m_seenWindows
  · simp only [hin, if_true] at h
    exact List.mem_of_mem_eraseIdx h
  · simpa [hin] using h

theorem enumWindowsProc_mem (os : Win32) (wl : WindowList) (d : Desktop) (hwnd : HWND)
    (w : WindowInfo) (h : w ∈ (enumWindowsProc os wl d hwnd).list.m_windows) :
    w ∈ wl.m_windows ∨ IsCapturableWindow os w = true := by
  unfold enumWindowsProc at h
  by_cases h1 : os.GetWindowTextLengthW hwnd > 0
  · by_cases h2 : IsCapturableWindow os (WindowInfo.ofHwnd os hwnd) = true
    · simp only [h1, if_true, h2, Bool.not_true, Bool.false_eq_true, if_false] at h
      rcases AddWindow_mem _ _ _ _ h with h | h
      · exact Or.inl h
      · right
        rw [h]
        exact h2
    · simp only [Bool.not_eq_true] at h2
      simp only [h1, if_true, h2, Bool.not_false] at h
      exact Or.inl h
  · simp only [h1, if_false] at h
    exact Or.inl h

theorem WinEventProc_mem (os : Win32) (wl : WindowList) (d : Desktop) (e : WinEvent)
    (w : WindowInfo) (h : w ∈ (WinEventProc os wl d e).list.m_windows) :
    w ∈ wl.m_windows ∨ IsCapturableWindow os w = true := by
  unfold WinEventProc at h
  split at h
  · exact Or.inl (RemoveWindow_mem _ _ _ _ h)
  · split at h
    · dsimp only at h
      split at h
      · rename_i h2
        rcases AddWindow_mem _ _ _ _ h with h | h
        · exact Or.inl h
        · right
          rw [h]
          exact h2
      · exact Or.inl h
    · exact Or.inl h

theorem enumWindows_mem (os : Win32) (hwnds : List HWND) (wl : WindowList) (d : Desktop)
    (w : WindowInfo) (h : w ∈ (enumWindows os hwnds wl d).list.m_windows) :
    w ∈ wl.m_windows ∨ IsCapturableWindow os w = true := by
  induction hwnds generalizing wl d with
  | nil => exact Or.inl h
  | cons hwnd rest ih =>
    simp only [enumWindows] at h
    split at h
    · exact enumWindowsProc_mem os wl d hwnd w h
    · rcases ih _ _ h with h | h
      · exact enumWindowsProc_mem os wl d hwnd w h
      · exact Or.inr h

theorem runEvents_mem (os : Win32) (events : List WinEvent) (wl : WindowList) (d : Desktop)
    (w : WindowInfo) (h : w ∈ (runEvents os events wl d).list.m_windows) :
    w ∈ wl.m_windows ∨ IsCapturableWindow os w = true := by
  induction events generalizing wl d with
  | nil => exact Or.inl h
  | cons e rest ih =>
    simp only [runEvents] at h
    split at h
    · exact WinEventProc_mem os wl d e w h
    · rcases ih _ _ h with h | h
      · exact WinEventProc_mem os wl d e w h
      · exact Or.inr h

theorem construct_mem (os : Win32) (flag : Bool) (d : Desktop) (w : WindowInfo)
    (h : w ∈ (WindowList.construct os flag d).list.m_windows) :
    IsCapturableWindow os w = true := by
  unfold WindowList.construct at h
  cases flag with
  | true => simp [WindowList.empty] at h
  | false =>
    simp only [Bool.false_eq_true, if_false] at h
    rcases enumWindows_mem os _ _ _ w h with h | h
    · simp [WindowList.empty] at h
    · exact h

theorem enumWindowsProc_ok (os : Win32) (wl : WindowList) (d : Desktop) (hwnd : HWND)
    (hc : wl.Consistent) (hr : Roomy wl d) :
    (enumWindowsProc os wl d hwnd).ret = .ok () ∧
    (enumWindowsProc os wl d hwnd).list.Consistent ∧
    Roomy (enumWindowsProc os wl d hwnd).list (enumWindowsProc os wl d hwnd).desktop := by
  unfold enumWindowsProc
  split
  · dsimp only
    split
    · exact ⟨rfl, hc, hr⟩
    · exact ⟨AddWindow_ret _ _ _, consistent_AddWindow _ _ _ hc, roomy_AddWindow _ _ _ hr⟩
  · exact ⟨rfl, hc, hr⟩

theorem enumWindows_ok (os : Win32) (hwnds : List HWND) (wl : WindowList) (d : Desktop)
    (hc : wl.Consistent) (hr : Roomy wl d) :
    (enumWindows os hwnds wl d).ret = .ok () ∧
    (enumWindows os hwnds wl d).list.Consistent ∧
    Roomy (enumWindows os hwnds wl d).list (enumWindows os hwnds wl d).desktop := by
  induction hwnds generalizing wl d with
  | nil => exact ⟨rfl, hc, hr⟩
  | cons hwnd rest ih =>
    obtain ⟨h1, h2, h3⟩ := enumWindowsProc_ok os wl d hwnd hc hr
    simp only [enumWindows, h1]
    exact ih _ _ h2 h3

theorem WinEventProc_ok (os : Win32) (wl : WindowList) (d : Desktop) (e : WinEvent)
    (hc : wl.Consistent) (hr : Roomy wl d) :
    (WinEventProc os wl d e).ret = .ok () ∧
    (WinEventProc os wl d e).list.Consistent ∧
    Roomy (WinEventProc os wl d e).list (WinEventProc os wl d e).desktop := by
  unfold WinEventProc
  split
  · obtain ⟨⟨b, hb⟩, h2⟩ := roomy_RemoveWindow wl d (WindowInfo.ofHwnd os e.hwnd) hc hr
    exact ⟨by simp [hb, Except.map], consistent_RemoveWindow _ _ _ hc, h2⟩
  · split
    · dsimp only
      split
      · exact ⟨AddWindow_ret _ _ _, consistent_AddWindow _ _ _ hc, roomy_AddWindow _ _ _ hr⟩
      · exact ⟨rfl, hc, hr⟩
    · exact ⟨rfl, hc, hr⟩

theorem runEvents_ok (os : Win32) (events : List WinEvent) (wl : WindowList) (d : Desktop)
    (hc : wl.Consistent) (hr : Roomy wl d) :
    (runEvents os events wl d).ret = .ok () ∧
    (runEvents os events wl d).list.Consistent := by
  induction events generalizing wl d with
  | nil => exact ⟨rfl, hc⟩
  | cons e rest ih =>
    obtain ⟨h1, h2, h3⟩ := WinEventProc_ok os wl d e hc hr
    simp only [runEvents, h1]
    exact ih _ _ h2 h3

theorem construct_ok (os : Win32) (d : Desktop) :
    (WindowList.construct os false d).ret = .ok () ∧
    (WindowList.construct os false d).list.Consistent ∧
    Roomy (WindowList.construct os false d).list (WindowList.construct os false d).desktop := by
  unfold WindowList.construct
  simp only [Bool.false_eq_true, if_false]
  exact enumWindows_ok os _ _ d (consistent_empty []) (roomy_empty [] d)

/-! ## The registry: theorems -/

/-- C1: after every finite sequence of `AddWindow` and `RemoveWindow` calls from the empty
registry, whatever the handles, the attached combo boxes and their entries, a handle is in
the sequence if and only if it is in the set, no handle is twice in the sequence, and no
call of the sequence has thrown. -/
theorem registry_consistent (cbs : List HWND) (d0 : Desktop) (calls : List RegistryCall) :
    (∀ h, h ∈ (runCalls calls ⟨[], ∅, cbs⟩ d0).list.m_windows.map WindowInfo.WindowHandle ↔
      h ∈ (runCalls calls ⟨[], ∅, cbs⟩ d0).list.m_seenWindows) ∧
    ((runCalls calls ⟨[], ∅, cbs⟩ d0).list.m_windows.map WindowInfo.WindowHandle).Nodup ∧
    (runCalls calls ⟨[], ∅, cbs⟩ d0).ret = .ok () := by
  have h := consistent_runCalls calls ⟨[], ∅, cbs⟩ d0 (consistent_empty cbs)
  exact ⟨h.1, h.2, (runCalls_ok calls _ d0 (consistent_empty cbs) (roomy_empty cbs d0)).1⟩

/-- C2: in every state reached from the empty registry by `AddWindow` and `RemoveWindow`,
`RemoveWindow` of a handle in the set returns true, takes the handle out of the set, and
takes out of the sequence the one entry at the index `i` of the first entry with that
handle (`i` is below the length, the entries before and after it stay in order, the length
drops by one); the messages of the call are one `CB_DELETESTRING i` for each attached combo
box, in the order of attachment. -/
theorem RemoveWindow_present_removes_first (cbs : List HWND) (d0 : Desktop)
    (calls : List RegistryCall) (info : WindowInfo)
    (hin : info.WindowHandle ∈ (runCalls calls ⟨[], ∅, cbs⟩ d0).list.m_seenWindows) :
    ∃ pre w post,
      (runCalls calls ⟨[], ∅, cbs⟩ d0).list.m_windows = pre ++ w :: post ∧
      w.WindowHandle = info.WindowHandle ∧
      (∀ x ∈ pre, x.WindowHandle ≠ info.WindowHandle) ∧
      pre.length < (runCalls calls ⟨[], ∅, cbs⟩ d0).list.m_windows.length ∧
      (RemoveWindow (runCalls calls ⟨[], ∅, cbs⟩ d0).list
        (runCalls calls ⟨[], ∅, cbs⟩ d0).desktop info).ret = .ok true ∧
      (RemoveWindow (runCalls calls ⟨[], ∅, cbs⟩ d0).list
        (runCalls calls ⟨[], ∅, cbs⟩ d0).desktop info).list.m_windows = pre ++ post ∧
      (RemoveWindow (runCalls calls ⟨[], ∅, cbs⟩ d0).list
        (runCalls calls ⟨[], ∅, cbs⟩ d0).desktop info).list.m_windows.length + 1 =
        (runCalls calls ⟨[], ∅, cbs⟩ d0).list.m_windows.length ∧
      (RemoveWindow (runCalls calls ⟨[], ∅, cbs⟩ d0).list
        (runCalls calls ⟨[], ∅, cbs⟩ d0).desktop info).list.m_seenWindows =
        (runCalls calls ⟨[], ∅, cbs⟩ d0).list.m_seenWindows.erase info.WindowHandle ∧
      info.WindowHandle ∉ (RemoveWindow (runCalls calls ⟨[], ∅, cbs⟩ d0).list
        (runCalls calls ⟨[], ∅, cbs⟩ d0).desktop info).list.m_seenWindows ∧
      info.WindowHandle ∉ (RemoveWindow (runCalls calls ⟨[], ∅, cbs⟩ d0).list
        (runCalls calls ⟨[], ∅, cbs⟩ d0).desktop info).list.m_windows.map
          WindowInfo.WindowHandle ∧
      (RemoveWindow (runCalls calls ⟨[], ∅, cbs⟩ d0).list
        (runCalls calls ⟨[], ∅, cbs⟩ d0).desktop info).list.m_comboBoxes = cbs ∧
      (RemoveWindow (runCalls calls ⟨[], ∅, cbs⟩ d0).list
        (runCalls calls ⟨[], ∅, cbs⟩ d0).desktop info).desktop.sent =
        (runCalls calls ⟨[], ∅, cbs⟩ d0).desktop.sent ++
          cbs.map (fun c => (c, ComboBoxMessage.CB_DELETESTRING pre.length)) ∧
      ∀ c, (RemoveWindow (runCalls calls ⟨[], ∅, cbs⟩ d0).list
        (runCalls calls ⟨[], ∅, cbs⟩ d0).desktop info).desktop.received c =
        (runCalls calls ⟨[], ∅, cbs⟩ d0).desktop.received c ++
          List.replicate (cbs.count c) (ComboBoxMessage.CB_DELETESTRING pre.length) := by
  have hc := consistent_runCalls calls ⟨[], ∅, cbs⟩ d0 (consistent_empty cbs)
  obtain ⟨_, hr, hcb⟩ := runCalls_ok calls ⟨[], ∅, cbs⟩ d0 (consistent_empty cbs)
    (roomy_empty cbs d0)
  simp only at hcb
  generalize (runCalls calls ⟨[], ∅, cbs⟩ d0).list = wl at hin hc hr hcb ⊢
  generalize (runCalls calls ⟨[], ∅, cbs⟩ d0).desktop = d at hr ⊢
  have hh : info.WindowHandle ∈ wl.m_windows.map WindowInfo.WindowHandle := (hc.1 _).mpr hin
  obtain ⟨pre0, w0, post0, e0, _, _, hidx0⟩ := scanIndex_split _ _ hh
  have hlt : scanIndex info.WindowHandle wl.m_windows < wl.m_windows.length := by
    rw [hidx0, e0]
    simp
  obtain ⟨pre, w, post, e, hw, hpre, hidx, hok, hrem⟩ :=
    RemoveWindow_present wl d info hc hin (room_of_roomy wl d _ hr hlt)
  have hc' := consistent_RemoveWindow wl d info hc
  rw [hrem] at hc' ⊢
  have hsent := sendToAll_sent _ _ d hok
  subst hcb
  refine ⟨pre, w, post, e, hw, hpre, by rw [← hidx]; exact hlt, rfl, rfl, ?_, rfl, ?_, ?_,
    rfl, hsent, ?_⟩
  · rw [e]
    simp only [List.length_append, List.length_cons]
    omega
  · simp
  · intro hmem
    have := (hc'.1 _).mp hmem
    simp at this
  · intro c
    simp only [Desktop.received]
    rw [hsent, List.filter_append, List.map_append, received_map]

/-- C2, at the registry [A = "Notepad", B = "Calculator"] with one combo box attached:
`RemoveWindow(A)` returns true, leaves [B = "Calculator"], and the combo box receives the
single message `CB_DELETESTRING 0`. -/
theorem RemoveWindow_present_removes_first_witness :
    (1 : HWND) ∈ (runCalls [.add ⟨1, "Notepad"⟩, .add ⟨2, "Calculator"⟩] ⟨[], ∅, [7]⟩
      ⟨fun _ => [], []⟩).list.m_seenWindows ∧
    (runCalls [.add ⟨1, "Notepad"⟩, .add ⟨2, "Calculator"⟩] ⟨[], ∅, [7]⟩
      ⟨fun _ => [], []⟩).list.m_windows = [⟨1, "Notepad"⟩, ⟨2, "Calculator"⟩] ∧
    (RemoveWindow
      (runCalls [.add ⟨1, "Notepad"⟩, .add ⟨2, "Calculator"⟩] ⟨[], ∅, [7]⟩ ⟨fun _ => [], []⟩).list
      (runCalls [.add ⟨1, "Notepad"⟩, .add ⟨2, "Calculator"⟩] ⟨[], ∅, [7]⟩
        ⟨fun _ => [], []⟩).desktop ⟨1, "Notepad"⟩).ret = .ok true ∧
    (RemoveWindow
      (runCalls [.add ⟨1, "Notepad"⟩, .add ⟨2, "Calculator"⟩] ⟨[], ∅, [7]⟩ ⟨fun _ => [], []⟩).list
      (runCalls [.add ⟨1, "Notepad"⟩, .add ⟨2, "Calculator"⟩] ⟨[], ∅, [7]⟩
        ⟨fun _ => [], []⟩).desktop ⟨1, "Notepad"⟩).list.m_windows = [⟨2, "Calculator"⟩] ∧
    (RemoveWindow
      (runCalls [.add ⟨1, "Notepad"⟩, .add ⟨2, "Calculator"⟩] ⟨[], ∅, [7]⟩ ⟨fun _ => [], []⟩).list
      (runCalls [.add ⟨1, "Notepad"⟩, .add ⟨2, "Calculator"⟩] ⟨[], ∅, [7]⟩
        ⟨fun _ => [], []⟩).desktop ⟨1, "Notepad"⟩).desktop.received 7 =
      (runCalls [.add ⟨1, "Notepad"⟩, .add ⟨2, "Calculator"⟩] ⟨[], ∅, [7]⟩
        ⟨fun _ => [], []⟩).desktop.received 7 ++ [.CB_DELETESTRING 0] := by
  have hin : (1 : HWND) ∈ (runCalls [.add ⟨1, "Notepad"⟩, .add ⟨2, "Calculator"⟩] ⟨[], ∅, [7]⟩
      ⟨fun _ => [], []⟩).list.m_seenWindows := by
    decide
  have hws : (runCalls [.add ⟨1, "Notepad"⟩, .add ⟨2, "Calculator"⟩] ⟨[], ∅, [7]⟩
      ⟨fun _ => [], []⟩).list.m_windows = [⟨1, "Notepad"⟩, ⟨2, "Calculator"⟩] := by
    decide
  obtain ⟨pre, w, post, e, hw, hpre, _, hret, hwin, _, _, _, _, _, _, hrecv⟩ :=
    RemoveWindow_present_removes_first [7] ⟨fun _ => [], []⟩
      [.add ⟨1, "Notepad"⟩, .add ⟨2, "Calculator"⟩] ⟨1, "Notepad"⟩ hin
  have hpre0 : pre = [] := by
    rw [hws] at e
    cases pre with
    | nil => rfl
    | cons x rest =>
      exfalso
      simp only [List.cons_append, List.cons.injEq] at e
      exact hpre x (List.mem_cons_self _ _) (by rw [← e.1])
  subst hpre0
  rw [hws] at e
  simp only [List.nil_append, List.cons.injEq] at e
  refine ⟨hin, hws, hret, ?_, ?_⟩
  · rw [hwin, ← e.2]
    rfl
  · have := hrecv 7
    simpa using this

/-- C3: in every state of the registry, `RemoveWindow` of a handle that is not in the set
returns false and leaves the sequence, the set, the attached combo boxes, the entries of
every combo box and the log of messages as they were. -/
theorem RemoveWindow_absent_unchanged (wl : WindowList) (d : Desktop) (info : WindowInfo)
    (hin : info.WindowHandle ∉ wl.m_seenWindows) :
    (RemoveWindow wl d info).ret = .ok false ∧
    (RemoveWindow wl d info).list = wl ∧
    (RemoveWindow wl d info).desktop = d := by
  rw [RemoveWindow_absent wl d info hin]
  exact ⟨rfl, rfl, rfl⟩

/-- C3, at the registry [1 = "Notepad"] with the combo box 7 attached and the handle 5. -/
theorem RemoveWindow_absent_unchanged_witness :
    (5 : HWND) ∉ ({1} : Finset HWND) ∧
    (RemoveWindow ⟨[⟨1, "Notepad"⟩], {1}, [7]⟩ ⟨fun _ => ["Notepad"], []⟩ ⟨5, ""⟩).ret
      = .ok false ∧
    (RemoveWindow ⟨[⟨1, "Notepad"⟩], {1}, [7]⟩ ⟨fun _ => ["Notepad"], []⟩ ⟨5, ""⟩).list
      = ⟨[⟨1, "Notepad"⟩], {1}, [7]⟩ ∧
    (RemoveWindow ⟨[⟨1, "Notepad"⟩], {1}, [7]⟩ ⟨fun _ => ["Notepad"], []⟩ ⟨5, ""⟩).desktop
      = ⟨fun _ => ["Notepad"], []⟩ :=
  ⟨by decide,
    RemoveWindow_absent_unchanged ⟨[⟨1, "Notepad"⟩], {1}, [7]⟩ ⟨fun _ => ["Notepad"], []⟩
      ⟨5, ""⟩ (by decide)⟩

/-- C4: `AddWindow` of a `WindowInfo` whose handle is in the set, whatever its title, leaves
the sequence, the set, the entries of every combo box and the log of messages as they were;
hence, in every state, a second `AddWindow` of the same `WindowInfo` changes nothing and
sends no message. -/
theorem AddWindow_idempotent :
    (∀ (wl : WindowList) (d : Desktop) (info : WindowInfo),
      info.WindowHandle ∈ wl.m_seenWindows →
        (AddWindow wl d info).ret = .ok () ∧ (AddWindow wl d info).list = wl ∧
        (AddWindow wl d info).desktop = d) ∧
    (∀ (wl : WindowList) (d : Desktop) (info : WindowInfo),
      (AddWindow (AddWindow wl d info).list (AddWindow wl d info).desktop info).ret = .ok () ∧
      (AddWindow (AddWindow wl d info).list (AddWindow wl d info).desktop info).list =
        (AddWindow wl d info).list ∧
      (AddWindow (AddWindow wl d info).list (AddWindow wl d info).desktop info).desktop =
        (AddWindow wl d info).desktop) := by
  have h1 : ∀ (wl : WindowList) (d : Desktop) (info : WindowInfo),
      info.WindowHandle ∈ wl.m_seenWindows →
        (AddWindow wl d info).ret = .ok () ∧ (AddWindow wl d info).list = wl ∧
        (AddWindow wl d info).desktop = d := by
    intro wl d info hin
    rw [AddWindow_present wl d info hin]
    exact ⟨rfl, rfl, rfl⟩
  refine ⟨h1, ?_⟩
  intro wl d info
  apply h1
  rw [AddWindow_list]
  by_cases hin : info.WindowHandle ∈ wl.m_seenWindows
  · simp [hin]
  · simp [hin]

/-- C4, at the registry [1 = "Notepad"] with the combo box 7 attached: adding the handle 1
under another title changes nothing. -/
theorem AddWindow_idempotent_witness :
    (1 : HWND) ∈ ({1} : Finset HWND) ∧
    (AddWindow ⟨[⟨1, "Notepad"⟩], {1}, [7]⟩ ⟨fun _ => ["Notepad"], []⟩ ⟨1, "Untitled"⟩).ret
      = .ok () ∧
    (AddWindow ⟨[⟨1, "Notepad"⟩], {1}, [7]⟩ ⟨fun _ => ["Notepad"], []⟩ ⟨1, "Untitled"⟩).list
      = ⟨[⟨1, "Notepad"⟩], {1}, [7]⟩ ∧
    (AddWindow ⟨[⟨1, "Notepad"⟩], {1}, [7]⟩ ⟨fun _ => ["Notepad"], []⟩ ⟨1, "Untitled"⟩).desktop
      = ⟨fun _ => ["Notepad"], []⟩ :=
  ⟨by decide,
    AddWindow_idempotent.1 ⟨[⟨1, "Notepad"⟩], {1}, [7]⟩ ⟨fun _ => ["Notepad"], []⟩
      ⟨1, "Untitled"⟩ (by decide)⟩

/-- C10, as amended: right after `ForceUpdateComboBox` the entries of the combo box are
the titles of the sequence, in order, each read as a NUL-terminated string; for a combo box
that is attached exactly once, this equality holds after every sequence of `AddWindow` and
`RemoveWindow` calls none of which threw, so that the two lists have the same length and
the same entry at every index; and no call throws when the registry is consistent and every
attached combo box is attached once and holds these titles. -/
theorem comboBox_in_sync :
    (∀ (wl : WindowList) (d : Desktop) (c : HWND),
      (ForceUpdateComboBox wl d c).ret = .ok () ∧
      (ForceUpdateComboBox wl d c).list = wl ∧
      (ForceUpdateComboBox wl d c).desktop.items c =
        wl.m_windows.map (fun w => c_str w.Title)) ∧
    (∀ (wl : WindowList) (d : Desktop) (c : HWND) (calls : List RegistryCall),
      wl.m_comboBoxes.count c = 1 →
      d.items c = wl.m_windows.map (fun w => c_str w.Title) →
      (runCalls calls wl d).ret = .ok () →
        (runCalls calls wl d).desktop.items c =
          (runCalls calls wl d).list.m_windows.map (fun w => c_str w.Title) ∧
        ((runCalls calls wl d).desktop.items c).length =
          (runCalls calls wl d).list.m_windows.length ∧
        ∀ i : Nat, ((runCalls calls wl d).desktop.items c)[i]? =
          ((runCalls calls wl d).list.m_windows[i]?).map (fun w => c_str w.Title)) ∧
    (∀ (wl : WindowList) (d : Desktop) (calls : List RegistryCall),
      wl.Consistent → wl.m_comboBoxes.Nodup →
      (∀ c ∈ wl.m_comboBoxes, d.items c = wl.m_windows.map (fun w => c_str w.Title)) →
        (runCalls calls wl d).ret = .ok ()) := by
  refine ⟨?_, ?_, ?_⟩
  · intro wl d c
    obtain ⟨h1, h2, h3, _⟩ := ForceUpdateComboBox_spec wl d c
    exact ⟨h1, h2, h3⟩
  · intro wl d c calls hatt hs hret
    have h := inSync_runCalls calls wl d c hatt hs hret
    simp only [WindowList.titles] at h
    refine ⟨h, ?_, ?_⟩
    · rw [h]
      simp
    · intro i
      rw [h]
      exact List.getElem?_map _ _ _
  · intro wl d calls hc hnd hs
    exact (runCalls_ok calls wl d hc (roomy_of_inSync wl d hnd hs)).1

/-- C10, at the registry [1 = "Notepad", 2 = "Calculator"] and the combo box 7 holding a
stale entry: after `ForceUpdateComboBox` it holds the two titles, and after
`RemoveWindow(1)` and `AddWindow(3 = "Paint")` it holds "Calculator" and "Paint". -/
theorem comboBox_in_sync_witness :
    ([7] : List HWND).count 7 = 1 ∧
    (ForceUpdateComboBox ⟨[⟨1, "Notepad"⟩, ⟨2, "Calculator"⟩], {1, 2}, [7]⟩
      ⟨fun _ => ["stale"], []⟩ 7).desktop.items 7 = ["Notepad", "Calculator"] ∧
    (runCalls [.remove ⟨1, ""⟩, .add ⟨3, "Paint"⟩]
      ⟨[⟨1, "Notepad"⟩, ⟨2, "Calculator"⟩], {1, 2}, [7]⟩
      (ForceUpdateComboBox ⟨[⟨1, "Notepad"⟩, ⟨2, "Calculator"⟩], {1, 2}, [7]⟩
        ⟨fun _ => ["stale"], []⟩ 7).desktop).ret = .ok () ∧
    (runCalls [.remove ⟨1, ""⟩, .add ⟨3, "Paint"⟩]
      ⟨[⟨1, "Notepad"⟩, ⟨2, "Calculator"⟩], {1, 2}, [7]⟩
      (ForceUpdateComboBox ⟨[⟨1, "Notepad"⟩, ⟨2, "Calculator"⟩], {1, 2}, [7]⟩
        ⟨fun _ => ["stale"], []⟩ 7).desktop).desktop.items 7 =
      (runCalls [.remove ⟨1, ""⟩, .add ⟨3, "Paint"⟩]
        ⟨[⟨1, "Notepad"⟩, ⟨2, "Calculator"⟩], {1, 2}, [7]⟩
        (ForceUpdateComboBox ⟨[⟨1, "Notepad"⟩, ⟨2, "Calculator"⟩], {1, 2}, [7]⟩
          ⟨fun _ => ["stale"], []⟩ 7).desktop).list.m_windows.map (fun w => c_str w.Title) ∧
    (runCalls [.remove ⟨1, ""⟩, .add ⟨3, "Paint"⟩]
      ⟨[⟨1, "Notepad"⟩, ⟨2, "Calculator"⟩], {1, 2}, [7]⟩
      (ForceUpdateComboBox ⟨[⟨1, "Notepad"⟩, ⟨2, "Calculator"⟩], {1, 2}, [7]⟩
        ⟨fun _ => ["stale"], []⟩ 7).desktop).list.m_windows.map (fun w => c_str w.Title) =
      ["Calculator", "Paint"] := by
  have hsync := (comboBox_in_sync.1 ⟨[⟨1, "Notepad"⟩, ⟨2, "Calculator"⟩], {1, 2}, [7]⟩
    ⟨fun _ => ["stale"], []⟩ 7).2.2
  have hret : (runCalls [.remove ⟨1, ""⟩, .add ⟨3, "Paint"⟩]
      ⟨[⟨1, "Notepad"⟩, ⟨2, "Calculator"⟩], {1, 2}, [7]⟩
      (ForceUpdateComboBox ⟨[⟨1, "Notepad"⟩, ⟨2, "Calculator"⟩], {1, 2}, [7]⟩
        ⟨fun _ => ["stale"], []⟩ 7).desktop).ret = .ok () := by
    rfl
  exact ⟨by decide, by decide, hret,
    (comboBox_in_sync.2.1 ⟨[⟨1, "Notepad"⟩, ⟨2, "Calculator"⟩], {1, 2}, [7]⟩ _ 7
      [.remove ⟨1, ""⟩, .add ⟨3, "Paint"⟩] (by decide) hsync hret).1, by decide⟩

/-- C10 as stated fails in three ways. With the combo boxes 8 and 7 attached, 8 empty and
7 just updated by `ForceUpdateComboBox` to hold "a" and "b": `RemoveWindow(2)` erases the
second window, sends `CB_DELETESTRING 1` to 8, gets `CB_ERR` and throws before reaching 7,
which still holds "a" and "b" while the sequence is [1 = "a"]. With 7 attached twice and
just updated to hold "a": `AddWindow(2 = "b")` sends it "b" twice, so that 7 holds "a",
"b", "b" while the sequence is [1 = "a", 2 = "b"]. With the window titled "a", NUL, "b":
right after `ForceUpdateComboBox` the entry of 7 is "a", not the title. -/
theorem comboBox_in_sync_fails :
    (([8, 7] : List HWND).count 7 = 1 ∧
     (ForceUpdateComboBox ⟨[⟨1, "a"⟩, ⟨2, "b"⟩], {1, 2}, [8, 7]⟩ ⟨fun _ => [], []⟩ 7).desktop.items 7
       = [⟨1, "a"⟩, ⟨2, "b"⟩].map WindowInfo.Title ∧
     (RemoveWindow ⟨[⟨1, "a"⟩, ⟨2, "b"⟩], {1, 2}, [8, 7]⟩
       (ForceUpdateComboBox ⟨[⟨1, "a"⟩, ⟨2, "b"⟩], {1, 2}, [8, 7]⟩ ⟨fun _ => [], []⟩ 7).desktop
       ⟨2, "b"⟩).ret = .error (.hresult_error CB_ERR) ∧
     (RemoveWindow ⟨[⟨1, "a"⟩, ⟨2, "b"⟩], {1, 2}, [8, 7]⟩
       (ForceUpdateComboBox ⟨[⟨1, "a"⟩, ⟨2, "b"⟩], {1, 2}, [8, 7]⟩ ⟨fun _ => [], []⟩ 7).desktop
       ⟨2, "b"⟩).list.m_windows = [⟨1, "a"⟩] ∧
     (RemoveWindow ⟨[⟨1, "a"⟩, ⟨2, "b"⟩], {1, 2}, [8, 7]⟩
       (ForceUpdateComboBox ⟨[⟨1, "a"⟩, ⟨2, "b"⟩], {1, 2}, [8, 7]⟩ ⟨fun _ => [], []⟩ 7).desktop
       ⟨2, "b"⟩).desktop.items 7 = ["a", "b"] ∧
     (RemoveWindow ⟨[⟨1, "a"⟩, ⟨2, "b"⟩], {1, 2}, [8, 7]⟩
       (ForceUpdateComboBox ⟨[⟨1, "a"⟩, ⟨2, "b"⟩], {1, 2}, [8, 7]⟩ ⟨fun _ => [], []⟩ 7).desktop
       ⟨2, "b"⟩).desktop.items 7 ≠
       (RemoveWindow ⟨[⟨1, "a"⟩, ⟨2, "b"⟩], {1, 2}, [8, 7]⟩
         (ForceUpdateComboBox ⟨[⟨1, "a"⟩, ⟨2, "b"⟩], {1, 2}, [8, 7]⟩ ⟨fun _ => [], []⟩ 7).desktop
         ⟨2, "b"⟩).list.m_windows.map WindowInfo.Title) ∧
    ((7 : HWND) ∈ ([7, 7] : List HWND) ∧
     (ForceUpdateComboBox ⟨[⟨1, "a"⟩], {1}, [7, 7]⟩ ⟨fun _ => [], []⟩ 7).desktop.items 7
       = [⟨1, "a"⟩].map WindowInfo.Title ∧
     (AddWindow ⟨[⟨1, "a"⟩], {1}, [7, 7]⟩
       (ForceUpdateComboBox ⟨[⟨1, "a"⟩], {1}, [7, 7]⟩ ⟨fun _ => [], []⟩ 7).desktop
       ⟨2, "b"⟩).ret = .ok () ∧
     (AddWindow ⟨[⟨1, "a"⟩], {1}, [7, 7]⟩
       (ForceUpdateComboBox ⟨[⟨1, "a"⟩], {1}, [7, 7]⟩ ⟨fun _ => [], []⟩ 7).desktop
       ⟨2, "b"⟩).list.m_windows = [⟨1, "a"⟩, ⟨2, "b"⟩] ∧
     (AddWindow ⟨[⟨1, "a"⟩], {1}, [7, 7]⟩
       (ForceUpdateComboBox ⟨[⟨1, "a"⟩], {1}, [7, 7]⟩ ⟨fun _ => [], []⟩ 7).desktop
       ⟨2, "b"⟩).desktop.items 7 = ["a", "b", "b"]) ∧
    ((ForceUpdateComboBox ⟨[⟨1, "a\x00b"⟩], {1}, [7]⟩ ⟨fun _ => [], []⟩ 7).desktop.items 7
       = ["a"] ∧
     [(⟨1, "a\x00b"⟩ : WindowInfo)].map WindowInfo.Title = ["a\x00b"] ∧
     ("a" : String) ≠ "a\x00b") := by
  refine ⟨⟨by decide, by decide, rfl, by decide, by decide, by decide⟩,
    ⟨by decide, by decide, rfl, by decide, by decide⟩, ⟨by decide, by decide, by decide⟩⟩

/-- C6: a registry driven by its constructor and its window-event callback, the answers of
the operating system being fixed, holds only windows that pass `IsCapturableWindow`: every
entry of the sequence, after the constructor and after every sequence of events, has a
title that is not empty and not "Task View", a handle other than the shell window, a clear
`WS_DISABLED` bit and itself as root ancestor; and every entry that one call of the
callback leaves in the sequence was there before or passes the filter. -/
theorem only_capturable_windows_added (os : Win32) (WindowListForThread : Bool) (d : Desktop)
    (events : List WinEvent) :
    (∀ w ∈ (runEvents os events (WindowList.construct os WindowListForThread d).list
        (WindowList.construct os WindowListForThread d).desktop).list.m_windows,
      IsCapturableWindow os w = true ∧ w.Title ≠ "" ∧ w.Title ≠ "Task View" ∧
      w.WindowHandle ≠ os.GetShellWindow ∧
      (os.GetWindowStyle w.WindowHandle).testBit 27 = false ∧
      os.GetAncestorRoot w.WindowHandle = w.WindowHandle) ∧
    (∀ w ∈ (WindowList.construct os WindowListForThread d).list.m_windows,
      IsCapturableWindow os w = true) ∧
    (∀ (wl : WindowList) (d1 : Desktop) (e : WinEvent),
      ∀ w ∈ (WinEventProc os wl d1 e).list.m_windows,
        w ∈ wl.m_windows ∨ IsCapturableWindow os w = true) ∧
    (runEvents os events (WindowList.construct os false d).list
        (WindowList.construct os false d).desktop).ret = .ok () := by
  refine ⟨?_, ?_, ?_, ?_⟩
  · intro w hw
    have hcap : IsCapturableWindow os w = true := by
      rcases runEvents_mem os events _ _ w hw with h | h
      · exact construct_mem os WindowListForThread d w h
      · exact h
    have h := (IsCapturableWindow_eq_true os w).mp hcap
    have hne : w.Title ≠ "Task View" := by
      intro heq
      apply h.2.2.2.2.2.2
      rw [heq]
      decide
    exact ⟨hcap, h.2.1, hne, h.1, h.2.2.2.2.1, h.2.2.2.1⟩
  · intro w hw
    exact construct_mem os WindowListForThread d w hw
  · intro wl d1 e w hw
    exact WinEventProc_mem os wl d1 e w hw
  · obtain ⟨_, h2, h3⟩ := construct_ok os d
    exact (runEvents_ok os events _ _ h2 h3).1

/-- C9, at the registry [1 = "Notepad"]: the destroy event of the caret of window 1
(`objectId = OBJID_CARET`, which is not `OBJID_WINDOW`, and `childId = CHILDID_SELF`) makes
the callback call `RemoveWindow`, and window 1 leaves the sequence and the set. -/
theorem WinEventProc_destroy_of_caret_removes_window :
    OBJID_CARET ≠ OBJID_WINDOW ∧
    (WinEventProc
      ⟨0, fun _ => true, fun h => h, fun _ => 0, fun _ => (0, 0), fun _ => 7,
        fun _ => "Notepad", [1]⟩
      ⟨[⟨1, "Notepad"⟩], {1}, []⟩ ⟨fun _ => [], []⟩
      ⟨EVENT_OBJECT_DESTROY, 1, OBJID_CARET, CHILDID_SELF⟩).list.m_windows = [] ∧
    (1 : HWND) ∉ (WinEventProc
      ⟨0, fun _ => true, fun h => h, fun _ => 0, fun _ => (0, 0), fun _ => 7,
        fun _ => "Notepad", [1]⟩
      ⟨[⟨1, "Notepad"⟩], {1}, []⟩ ⟨fun _ => [], []⟩
      ⟨EVENT_OBJECT_DESTROY, 1, OBJID_CARET, CHILDID_SELF⟩).list.m_seenWindows ∧
    (WindowList.construct
      ⟨0, fun _ => true, fun h => h, fun _ => 0, fun _ => (0, 0), fun _ => 7,
        fun _ => "Notepad", [1]⟩ false ⟨fun _ => [], []⟩).list.m_windows =
      [⟨1, "Notepad"⟩] := by
  decide

/-! ## The capture orchestrator: theorems -/

/-- C7: with an active session and a file from the save picker, the encoder format and the
pixel format of the capture are those that `formatForExtension` gives for the extension of
the file, whatever the session and the stored pixel format: ".png" gives Png with
B8G8R8A8UIntNormalized, ".jpg" gives Jpg with B8G8R8A8UIntNormalized, ".jxr" gives Jxr with
R16G16B16A16Float, and ".txt" gives none. When it gives none, the dialog is shown, nothing
is opened, captured or encoded, and no file is returned. When it gives a format, no dialog
is shown, every capture is of the item of the session at that pixel format, every encoding
is in that format, and when the collaborators succeed the file is returned after the file
was opened, one frame captured and encoded. A file is returned only in that way. Every
extension other than ".png", ".jpg", ".jpeg" and ".jxr" gives none. -/
theorem snapshot_format_by_extension :
    formatForExtension ".png" = some (.Png, .B8G8R8A8UIntNormalized) ∧
    formatForExtension ".jpg" = some (.Jpg, .B8G8R8A8UIntNormalized) ∧
    formatForExtension ".jxr" = some (.Jxr, .R16G16B16A16Float) ∧
    formatForExtension ".txt" = none ∧
    (∀ (p : Platform) (app : App) (capture : SimpleCapture) (file : StorageFile),
      app.m_capture = some capture → p.PickSaveFileAsync = some file →
      formatForExtension file.FileType = none →
        (app.TakeSnapshotAsync p).ret = .ok none ∧
        (app.TakeSnapshotAsync p).app = app ∧
        (app.TakeSnapshotAsync p).effects =
          savePickerEffects ++ [.MessageDialog_ShowAsync "Unsupported file format!"]) ∧
    (∀ (p : Platform) (app : App) (capture : SimpleCapture) (file : StorageFile)
      (fileFormat : SupportedFormats) (pixelFormat : DirectXPixelFormat),
      app.m_capture = some capture → p.PickSaveFileAsync = some file →
      formatForExtension file.FileType = some (fileFormat, pixelFormat) →
        (∀ e ∈ (app.TakeSnapshotAsync p).effects,
          (∀ text, e ≠ .MessageDialog_ShowAsync text) ∧
          (∀ item format, e = .TakeAsync item format →
            item = capture.CaptureItem ∧ format = pixelFormat) ∧
          (∀ frame stream format, e = .EncodeImage frame stream format →
            format = fileFormat)) ∧
        (∀ stream frame, p.OpenAsync file = .ok stream →
          p.TakeAsync capture.CaptureItem pixelFormat = .ok frame →
          p.EncodeImage frame stream fileFormat = .ok () →
            (app.TakeSnapshotAsync p).ret = .ok (some file) ∧
            (app.TakeSnapshotAsync p).app = app ∧
            (app.TakeSnapshotAsync p).effects =
              savePickerEffects ++
                [.OpenAsync_ReadWrite file, .TakeAsync capture.CaptureItem pixelFormat,
                  .EncodeImage frame stream fileFormat])) ∧
    (∀ (p : Platform) (app : App) (returned : StorageFile),
      (app.TakeSnapshotAsync p).ret = .ok (some returned) →
        ∃ capture fileFormat pixelFormat stream frame,
          app.m_capture = some capture ∧ p.PickSaveFileAsync = some returned ∧
          formatForExtension returned.FileType = some (fileFormat, pixelFormat) ∧
          (app.TakeSnapshotAsync p).effects =
            savePickerEffects ++
              [.OpenAsync_ReadWrite returned, .TakeAsync capture.CaptureItem pixelFormat,
                .EncodeImage frame stream fileFormat]) ∧
    (∀ fileExtension : String,
      fileExtension ≠ ".png" → fileExtension ≠ ".jpg" → fileExtension ≠ ".jpeg" →
      fileExtension ≠ ".jxr" → formatForExtension fileExtension = none) := by
  refine ⟨by decide, by decide, by decide, by decide, ?_, ?_, ?_, ?_⟩
  · intro p app capture file hcap hpick hfmt
    simp [App.TakeSnapshotAsync, hcap, hpick, hfmt]
  · intro p app capture file fileFormat pixelFormat hcap hpick hfmt
    constructor
    · intro e he
      simp only [App.TakeSnapshotAsync, hcap, hpick, hfmt] at he
      cases hopen : p.OpenAsync file with
      | error x =>
        simp only [hopen, savePickerEffects] at he
        simp at he
        rcases he with he | he | he | he | he | he | he | he | he <;> subst he <;> simp
      | ok stream =>
        cases htake : p.TakeAsync capture.CaptureItem pixelFormat with
        | error x =>
          simp only [hopen, htake, savePickerEffects] at he
          simp at he
          rcases he with he | he | he | he | he | he | he | he | he | he <;> subst he <;> simp
        | ok frame =>
          cases henc : p.EncodeImage frame stream fileFormat with
          | error x =>
            simp only [hopen, htake, henc, savePickerEffects] at he
            simp at he
            rcases he with he | he | he | he | he | he | he | he | he | he | he <;>
              subst he <;> simp
          | ok u =>
            simp only [hopen, htake, henc, savePickerEffects] at he
            simp at he
            rcases he with he | he | he | he | he | he | he | he | he | he | he <;>
              subst he <;> simp
    · intro stream frame hopen htake henc
      simp [App.TakeSnapshotAsync, hcap, hpick, hfmt, hopen, htake, henc]
  · intro p app returned hret
    unfold App.TakeSnapshotAsync at hret ⊢
    cases hcap : app.m_capture with
    | none => simp [hcap] at hret
    | some capture =>
      cases hpick : p.PickSaveFileAsync with
      | none => simp [hcap, hpick] at hret
      | some file =>
        cases hfmt : formatForExtension file.FileType with
        | none => simp [hcap, hpick, hfmt] at hret
        | some fp =>
          obtain ⟨fileFormat, pixelFormat⟩ := fp
          cases hopen : p.OpenAsync file with
          | error x => simp [hcap, hpick, hfmt, hopen] at hret
          | ok stream =>
            cases htake : p.TakeAsync capture.CaptureItem pixelFormat with
            | error x => simp [hcap, hpick, hfmt, hopen, htake] at hret
            | ok frame =>
              cases henc : p.EncodeImage frame stream fileFormat with
              | error x => simp [hcap, hpick, hfmt, hopen, htake, henc] at hret
              | ok u =>
                simp only [hcap, hpick, hfmt, hopen, htake, henc, Except.ok.injEq,
                  Option.some.injEq] at hret
                subst hret
                exact ⟨capture, fileFormat, pixelFormat, stream, frame, rfl, rfl, hfmt,
                  by simp [hfmt, hopen, htake, henc]⟩
  · intro fileExtension h1 h2 h3 h4
    simp [formatForExtension, h1, h2, h3, h4]

/-- C7, at a session that captures item 9 in R16G16B16A16Float and the file "snapshot.png":
the frame is captured in B8G8R8A8UIntNormalized, encoded as Png, and the file is returned. -/
theorem snapshot_format_by_extension_witness :
    formatForExtension ".png" = some (.Png, .B8G8R8A8UIntNormalized) ∧
    (App.TakeSnapshotAsync
      ⟨some ⟨"snapshot.png", ".png"⟩, fun _ => .ok ⟨1⟩, fun _ _ => .ok ⟨2⟩, fun _ _ _ => .ok ()⟩
      ⟨some ⟨⟨9⟩, .R16G16B16A16Float, true, true⟩, .R16G16B16A16Float, some ⟨9⟩⟩).ret =
      .ok (some ⟨"snapshot.png", ".png"⟩) ∧
    (App.TakeSnapshotAsync
      ⟨some ⟨"snapshot.png", ".png"⟩, fun _ => .ok ⟨1⟩, fun _ _ => .ok ⟨2⟩, fun _ _ _ => .ok ()⟩
      ⟨some ⟨⟨9⟩, .R16G16B16A16Float, true, true⟩, .R16G16B16A16Float, some ⟨9⟩⟩).effects =
      savePickerEffects ++
        [.OpenAsync_ReadWrite ⟨"snapshot.png", ".png"⟩,
          .TakeAsync ⟨9⟩ .B8G8R8A8UIntNormalized, .EncodeImage ⟨2⟩ ⟨1⟩ .Png] := by
  have h := (snapshot_format_by_extension.2.2.2.2.2.1
    ⟨some ⟨"snapshot.png", ".png"⟩, fun _ => .ok ⟨1⟩, fun _ _ => .ok ⟨2⟩, fun _ _ _ => .ok ()⟩
    ⟨some ⟨⟨9⟩, .R16G16B16A16Float, true, true⟩, .R16G16B16A16Float, some ⟨9⟩⟩
    ⟨⟨9⟩, .R16G16B16A16Float, true, true⟩ ⟨"snapshot.png", ".png"⟩
    .Png .B8G8R8A8UIntNormalized rfl rfl (by decide)).2 ⟨1⟩ ⟨2⟩ rfl rfl rfl
  exact ⟨snapshot_format_by_extension.1, h.1, h.2.2⟩

/-- C8: with no active session, `TakeSnapshotAsync` returns no file and makes no call on
the save picker, the dialog, the frame grabber or the encoder; the cursor and border
queries return false; the cursor and border setters and `StopCapture` make no call; and
all six leave the orchestrator as it was and throw nothing. -/
theorem no_session_is_no_op (p : Platform) (app : App) (value : Bool)
    (hnone : app.m_capture = none) :
    app.TakeSnapshotAsync p = ⟨app, [], .ok none⟩ ∧
    app.IsCursorEnabled = ⟨app, [], .ok false⟩ ∧
    app.IsBorderRequired = ⟨app, [], .ok false⟩ ∧
    app.IsCursorEnabled_set value = ⟨app, [], .ok ()⟩ ∧
    app.IsBorderRequired_set value = ⟨app, [], .ok ()⟩ ∧
    app.StopCapture = ⟨app, [], .ok ()⟩ := by
  simp [App.TakeSnapshotAsync, App.IsCursorEnabled, App.IsBorderRequired,
    App.IsCursorEnabled_set, App.IsBorderRequired_set, App.StopCapture, hnone]

/-- C8, at an orchestrator without session whose stored pixel format is
B8G8R8A8UIntNormalized, and a save picker that would return a file. -/
theorem no_session_is_no_op_witness :
    (⟨none, .B8G8R8A8UIntNormalized, none⟩ : App).m_capture = none ∧
    (App.TakeSnapshotAsync
      ⟨some ⟨"snapshot.png", ".png"⟩, fun _ => .ok ⟨1⟩, fun _ _ => .ok ⟨2⟩, fun _ _ _ => .ok ()⟩
      ⟨none, .B8G8R8A8UIntNormalized, none⟩) =
      ⟨⟨none, .B8G8R8A8UIntNormalized, none⟩, [], .ok none⟩ ∧
    (App.IsCursorEnabled_set ⟨none, .B8G8R8A8UIntNormalized, none⟩ true) =
      ⟨⟨none, .B8G8R8A8UIntNormalized, none⟩, [], .ok ()⟩ :=
  ⟨rfl,
    (no_session_is_no_op
      ⟨some ⟨"snapshot.png", ".png"⟩, fun _ => .ok ⟨1⟩, fun _ _ => .ok ⟨2⟩, fun _ _ _ => .ok ()⟩
      ⟨none, .B8G8R8A8UIntNormalized, none⟩ true rfl).1,
    (no_session_is_no_op
      ⟨some ⟨"snapshot.png", ".png"⟩, fun _ => .ok ⟨1⟩, fun _ _ => .ok ⟨2⟩, fun _ _ _ => .ok ()⟩
      ⟨none, .B8G8R8A8UIntNormalized, none⟩ true rfl).2.2.2.1⟩

end Win32CaptureSample
